import Mathlib

/-!
Verification of the core components of the RaspberryPi-Cam-Streamer
repository against its natural-language specification.

The development shallowly embeds the C sources:
* `src/cb/circular_buffer.c`   — the frame queue (`cb_write` / `cb_read`);
* `src/image/image_encoder.c`  — the YUYV → RGB converter;
* `src/http/mjpeg_stream.c`    — the MJPEG wire-format emitter;
* `src/camera/camera.c`        — the V4L2 device lifecycle.

Machine integers are modelled as `Nat`/`Int` with explicit `%` where the C
code wraps; fallible calls return explicit result codes; system calls are
resolved by an explicit oracle; side effects (close/munmap/free/ioctl) are
recorded as event traces.
-/

namespace CamStreamer

/-! ## Circular buffer (`src/cb/circular_buffer.c`, `circular_buffer.h`)

`#define BUFFER_SIZE 10`; the buffer stores `jpeg_frame*` pointers, modelled
by an arbitrary type `α`.  `head`/`tail` are `uint32_t` indices; they only
ever hold values `< BUFFER_SIZE` (every store goes through `% BUFFER_SIZE`),
so `Nat` represents them exactly (no 2^32 wrap can occur). -/

def BUFFER_SIZE : Nat := 10

/-- Embeds `struct CircularBuffer` (circular_buffer.h:25-29).  The C entries array
is uninitialised storage; it is modelled as a total function from indices
to values, arbitrary at initialisation time. -/
structure CircularBuffer (α : Type) where
  entries : Nat → α
  head : Nat
  tail : Nat

/-- Embeds `circular_buffer_init` (circular_buffer.c:22-25): sets `head = tail = 0`
and leaves the entry storage untouched (parameter `e`). -/
def circular_buffer_init {α : Type} (e : Nat → α) : CircularBuffer α :=
  ⟨e, 0, 0⟩

/-- Embeds `cb_write` (circular_buffer.c:39-52): store at `head`, advance `head`
mod `BUFFER_SIZE`; if the advanced head caught up with `tail`, advance
`tail` (discarding the oldest entry).  The C function calls no deallocation
routine anywhere in its body. -/
def cb_write {α : Type} (cb : CircularBuffer α) (frame : α) : CircularBuffer α :=
  ⟨fun i => if i = cb.head then frame else cb.entries i,
   (cb.head + 1) % BUFFER_SIZE,
   if (cb.head + 1) % BUFFER_SIZE = cb.tail then (cb.tail + 1) % BUFFER_SIZE else cb.tail⟩

/-- Embeds `cb_read` (circular_buffer.c:65-79): if `head == tail` report failure
(`false`/`none`) and leave the buffer untouched; otherwise return the entry
at `tail` and advance `tail`. -/
def cb_read {α : Type} (cb : CircularBuffer α) : Option α × CircularBuffer α :=
  if cb.head = cb.tail then (none, cb)
  else (some (cb.entries cb.tail), ⟨cb.entries, cb.head, (cb.tail + 1) % BUFFER_SIZE⟩)

/-- Number of live (readable) entries of the ring representation. -/
def size {α : Type} (cb : CircularBuffer α) : Nat :=
  (cb.head + BUFFER_SIZE - cb.tail) % BUFFER_SIZE

/-- The list of `n` entries starting at ring index `t`. -/
def contentsAux {α : Type} (e : Nat → α) (t : Nat) : Nat → List α
  | 0 => []
  | Nat.succ n => e (t % BUFFER_SIZE) :: contentsAux e (t + 1) n

/-- The live contents of the buffer, oldest first: the entries at ring
indices `tail, tail+1, …, head-1` (mod `BUFFER_SIZE`). -/
def contents {α : Type} (cb : CircularBuffer α) : List α :=
  contentsAux cb.entries cb.tail (size cb)

/-- One queue operation, as issued by the producer/consumer threads. -/
inductive Op (α : Type) where
  | write (f : α)
  | read

/-- Effect of one operation on the buffer state (`cb_read`'s output value is
dropped here; it is studied separately). -/
def step {α : Type} (cb : CircularBuffer α) : Op α → CircularBuffer α
  | Op.write f => cb_write cb f
  | Op.read => (cb_read cb).2

/-- Run a sequence of operations. -/
def run {α : Type} (cb : CircularBuffer α) (ops : List (Op α)) : CircularBuffer α :=
  ops.foldl step cb

/-- Consecutive writes `f1..fk` (producer side). -/
def writeAll {α : Type} (cb : CircularBuffer α) (fs : List α) : CircularBuffer α :=
  fs.foldl cb_write cb

/-- Perform `n` consecutive `cb_read` calls, collecting the returned frames
in order; stops early if a read fails. -/
def drainAux {α : Type} : Nat → CircularBuffer α → List α
  | 0, _ => []
  | Nat.succ n, cb =>
    match cb_read cb with
    | (none, _) => []
    | (some f, cb') => f :: drainAux n cb'

/-- Variant of `cb_write` instrumented with the list of entries whose owned memory it
releases.  The body of `cb_write` (circular_buffer.c:39-52) contains no call
to `free` or to any other release routine, so this list is always empty. -/
def cb_write_ev {α : Type} (cb : CircularBuffer α) (f : α) : CircularBuffer α × List α :=
  (cb_write cb f, [])

/-- Run a sequence of writes, accumulating every entry released by the
queue along the way. -/
def write_run {α : Type} (cb : CircularBuffer α) : List α → CircularBuffer α × List α
  | [] => (cb, [])
  | f :: rest =>
    let p := cb_write_ev cb f
    let q := write_run p.1 rest
    (q.1, p.2 ++ q.2)

/-- Well-formedness: both indices are in range.  Established by
`circular_buffer_init` and preserved by every operation. -/
def WF {α : Type} (cb : CircularBuffer α) : Prop :=
  cb.head < BUFFER_SIZE ∧ cb.tail < BUFFER_SIZE

/-! ## Image converter (`src/image/image_encoder.c`)

`convert_yuyv_to_rgb` (image_encoder.c:22-78) iterates `for (x = 0;
x < yuyv->width; x += 2)`, consuming one 4-byte YUYV group per iteration
(it advances `yuyv->data` by 4 each time) and producing the 6 RGB bytes at
output offsets `3x .. 3x+5`.  The output is modelled as the list of bytes
written, in offset order; the loop writes the contiguous range
`0 .. 3*width-1` and nothing else.  Values are C `int` (`Int` here); the
stored bytes are `unsigned char` in `[0,255]` after `CLIP`. -/

/-- Embeds `struct yuyv_frame` (image_encoder.h:16-21); `data` is the byte buffer
(each element an `unsigned char` value). -/
structure yuyv_frame where
  data : List Nat
  width : Nat
  height : Nat
deriving DecidableEq

/-- Embeds `#define CLIP(x) ((x) < 0 ? 0 : ((x) > 255 ? 255 : (x)))`
(image_encoder.c:20). -/
def CLIP (x : Int) : Int :=
  if x < 0 then 0 else if 255 < x then 255 else x

/-- The C expression `v >> 8` on a (possibly negative) `int`: gcc performs
an arithmetic right shift, i.e. floor division by 2^8. -/
def shr8 (x : Int) : Int := Int.fdiv x 256

/-- One loop iteration of `convert_yuyv_to_rgb` (image_encoder.c:33-73):
decode the 4-byte group `y0 u y1 v` into 6 RGB bytes via the fixed-point
BT.601 transform. -/
def yuyv_pair (y0 u y1 v : Nat) : List Nat :=
  let d : Int := (u : Int) - 128
  let e : Int := (v : Int) - 128
  let c0 : Int := (y0 : Int) - 16
  let c1 : Int := (y1 : Int) - 16
  [(CLIP (shr8 (298 * c0 + 409 * e + 128))).toNat,
   (CLIP (shr8 (298 * c0 - 100 * d - 208 * e + 128))).toNat,
   (CLIP (shr8 (298 * c0 + 516 * d + 128))).toNat,
   (CLIP (shr8 (298 * c1 + 409 * e + 128))).toNat,
   (CLIP (shr8 (298 * c1 - 100 * d - 208 * e + 128))).toNat,
   (CLIP (shr8 (298 * c1 + 516 * d + 128))).toNat]

/-- The loop of `convert_yuyv_to_rgb`, one call per iteration: reads the
next 4 input bytes, then advances the input pointer by 4
(image_encoder.c:75).  The fuel is the number of iterations. -/
def rgb_row : List Nat → Nat → List Nat
  | _, 0 => []
  | data, Nat.succ n =>
    yuyv_pair (data.getD 0 0) (data.getD 1 0) (data.getD 2 0) (data.getD 3 0)
      ++ rgb_row (data.drop 4) n

/-- Embeds `convert_yuyv_to_rgb` (image_encoder.c:22-78).  The loop runs for
`x = 0, 2, 4, …  < width`, i.e. `⌈width/2⌉` iterations; `yuyv->height` is
never read by the function. -/
def convert_yuyv_to_rgb (f : yuyv_frame) : List Nat :=
  rgb_row f.data ((f.width + 1) / 2)

/-! ## MJPEG wire format (`src/http/mjpeg_stream.c`)

The client socket is modelled by a write oracle: for the `k`-th `write`
call it either reports an error (`none`, i.e. `write` returned `-1`) or
accepts up to `n` bytes (`some n`; a short write when `n` is below the
requested length).  `send_mjpeg_frame` returns the C result code together
with the exact byte sequence that reached the socket. -/

/-- Embeds `struct jpeg_frame` (image_encoder.h:38-41); `data` is a pointer,
possibly `NULL` (`none`), otherwise the allocated byte buffer. -/
structure jpeg_frame where
  data : Option (List Nat)
  size : Nat
deriving DecidableEq

/-- Bytes of an ASCII string (each `char` as its code point). -/
def str_bytes (s : String) : List Nat := s.data.map Char.toNat

/-- The header produced by `snprintf` (mjpeg_stream.c:100-106); `%lu`
renders `frame->size` in decimal.  Its length (55 + number of digits) is
far below the 256-byte buffer, so no truncation occurs. -/
def header_string (n : Nat) : String :=
  "--frame\r\n" ++ "Content-Type: image/jpeg\r\n" ++
    "Content-Length: " ++ Nat.repr n ++ "\r\n" ++ "\r\n"

/-- One `write(fd, buf, len)` call: result code and bytes that reached the
wire. -/
def sock_write (o : Nat → Option Nat) (k : Nat) (chunk : List Nat) :
    Int × List Nat :=
  match o k with
  | none => (-1, [])
  | some n => ((min n chunk.length : Nat), chunk.take (min n chunk.length))

/-- Embeds `send_mjpeg_frame` (mjpeg_stream.c:91-125).  Returns the C result code
(0 success, `-1` invalid frame, `-2`/`-3`/`-4` for a failed header /
payload / terminator write) and the concatenation of all bytes written to
the client socket. -/
def send_mjpeg_frame (o : Nat → Option Nat) (fr : Option jpeg_frame) :
    Int × List Nat :=
  match fr with
  | none => (-1, [])
  | some f =>
    match f.data with
    | none => (-1, [])
    | some bytes =>
      if f.size = 0 then (-1, [])
      else
        let header := str_bytes (header_string f.size)
        let w1 := sock_write o 0 header
        if w1.1 ≠ (header.length : Int) then (-2, w1.2)
        else
          let payload := bytes.take f.size
          let w2 := sock_write o 1 payload
          if w2.1 ≠ (payload.length : Int) then (-3, w1.2 ++ w2.2)
          else
            let w3 := sock_write o 2 (str_bytes "\r\n")
            if w3.1 ≠ 2 then (-4, w1.2 ++ w2.2 ++ w3.2)
            else (0, w1.2 ++ w2.2 ++ w3.2)

/-! ## Camera lifecycle (`src/camera/camera.c`)

Device interaction (`open`, `ioctl`, `mmap`, `calloc`) is resolved by an
oracle; each fallible call either succeeds or fails with an `errno` value.
Resource acquisition and release are recorded as events so that leak
freedom can be stated on the trace. -/

/-- Outcome of one fallible system/library call. -/
inductive SysRes where
  | ok
  | fail (eno : Nat)
deriving DecidableEq

/-- Oracle fixing the outcome of every external call made during one
camera-setup/teardown scenario. -/
structure SysOracle where
  openDev : Option Nat
  openCam : Except Nat Nat
  sfmtRes : SysRes
  reqbufsRes : SysRes
  callocRes : SysRes
  querybufRes : Nat → SysRes
  buflen : Nat → Nat
  mmapRes : Nat → SysRes
  qbufRes : Nat → SysRes
  streamonRes : SysRes
  streamoffRes : SysRes
  ledOnRes : SysRes
  ledOffRes : SysRes

/-- POSIX guarantees: a failing call sets `errno` to a positive value
(so `-errno < 0` and the C error checks `< 0` fire). -/
def WFOracle (o : SysOracle) : Prop :=
  (∀ e, o.openCam = Except.error e → 1 ≤ e) ∧
  (∀ e, o.sfmtRes = SysRes.fail e → 1 ≤ e) ∧
  (∀ e, o.reqbufsRes = SysRes.fail e → 1 ≤ e) ∧
  (∀ e, o.callocRes = SysRes.fail e → 1 ≤ e) ∧
  (∀ i e, o.querybufRes i = SysRes.fail e → 1 ≤ e) ∧
  (∀ i e, o.mmapRes i = SysRes.fail e → 1 ≤ e) ∧
  (∀ i e, o.qbufRes i = SysRes.fail e → 1 ≤ e) ∧
  (∀ e, o.streamonRes = SysRes.fail e → 1 ≤ e)

/-- Status of one `buffers[i].start` pointer: zeroed by `calloc`,
`MAP_FAILED`, or a successful mapping. -/
inductive MapState where
  | nullPtr
  | mapFailed
  | mapped
deriving DecidableEq

/-- Embeds `struct buffer` (camera.h:30-33). -/
structure MappedBuf where
  start : MapState
  length : Nat
deriving DecidableEq

/-- Embeds `struct camera_ctx` (camera.h:43-53), restricted to the fields the
lifecycle logic reads: the two descriptors, the granted buffer count
(`req.count`), the buffer array pointer and `n_buffers`. -/
structure camera_ctx where
  dev_fd : Int
  cam_fd : Int
  req_count : Nat
  buffers : Option (List MappedBuf)
  n_buffers : Nat
deriving DecidableEq

/-- Externally visible resource/signal actions performed by the camera
module, in program order. -/
inductive CamEvent where
  | openedFd (fd : Nat)
  | closedFd (fd : Nat)
  | callocBuffers
  | freeBuffers
  | mmapDone (i len : Nat)
  | munmapDone (i len : Nat)
  | streamOnDev
  | streamOffDev
  | ledGreen
  | ledRed
deriving DecidableEq

/-- Zeroed `struct buffer` entry (as produced by `calloc`). -/
def dftBuf : MappedBuf := ⟨MapState.nullPtr, 0⟩

/-- Embeds `cctx->buffers[i]` (reads within the array bounds in every reachable
state). -/
def bufAt (bs : List MappedBuf) (i : Nat) : MappedBuf := bs.getD i dftBuf

/-- The `munmap` calls issued by `cleanup_buffers`' loop (camera.c:495-499):
for `i = 0 .. n-1` in order, unmap `buffers[i]` when its `start` is
non-null and not `MAP_FAILED`. -/
def munmapUpTo (bs : List MappedBuf) : Nat → List CamEvent
  | 0 => []
  | Nat.succ n =>
    munmapUpTo bs n ++
      match (bufAt bs n).start with
      | MapState.mapped => [CamEvent.munmapDone n (bufAt bs n).length]
      | _ => []

/-- Embeds `cleanup_buffers` (camera.c:491-504): no-op when `buffers == NULL`;
otherwise unmap all mapped buffers, free the array, and reset
`buffers`/`n_buffers`. -/
def cleanup_buffers (s : camera_ctx) : camera_ctx × List CamEvent :=
  match s.buffers with
  | none => (s, [])
  | some bs =>
    ({ s with buffers := none, n_buffers := 0 },
     munmapUpTo bs s.n_buffers ++ [CamEvent.freeBuffers])

/-- Embeds `open_control_device` (camera.c:135-143): `open` stores its result in
`dev_fd` (`-1` on failure) and the function returns `-1` on failure. -/
def open_control_device (o : SysOracle) (s : camera_ctx) :
    Int × camera_ctx × List CamEvent :=
  match o.openDev with
  | none => (-1, { s with dev_fd := -1 }, [])
  | some fd => (0, { s with dev_fd := (fd : Int) }, [CamEvent.openedFd fd])

/-- Embeds `configure_camera` (camera.c:157-195): open `/dev/video0` (on failure
`cam_fd = -1`, return `-errno`); then `VIDIOC_S_FMT` (on failure close
`cam_fd`, set it to `-1`, return `-errno`). -/
def configure_camera (o : SysOracle) (s : camera_ctx) :
    Int × camera_ctx × List CamEvent :=
  match o.openCam with
  | Except.error e => (-(e : Int), { s with cam_fd := -1 }, [])
  | Except.ok fd =>
    match o.sfmtRes with
    | SysRes.fail e =>
      (-(e : Int), { s with cam_fd := -1 },
       [CamEvent.openedFd fd, CamEvent.closedFd fd])
    | SysRes.ok => (0, { s with cam_fd := (fd : Int) }, [CamEvent.openedFd fd])

/-- Embeds `request_mmap_buffers` (camera.c:208-221): sets `req.count = 4` and
issues `VIDIOC_REQBUFS`. -/
def request_mmap_buffers (o : SysOracle) (s : camera_ctx) :
    Int × camera_ctx × List CamEvent :=
  match o.reqbufsRes with
  | SysRes.fail e => (-(e : Int), { s with req_count := 4 }, [])
  | SysRes.ok => (0, { s with req_count := 4 }, [])

/-- Embeds `cctx->buffers[i] = b` (when the array exists). -/
def setBuf (s : camera_ctx) (i : Nat) (b : MappedBuf) : camera_ctx :=
  match s.buffers with
  | none => s
  | some bs => { s with buffers := some (bs.set i b) }

/-- The per-buffer loop of `map_buffers` (camera.c:251-282), starting at
index `i` with the given number of remaining iterations: `VIDIOC_QUERYBUF`
(on failure return `-errno` with no local cleanup), then `mmap` (on
failure record `MAP_FAILED`, run `cleanup_buffers`, null the array and
return `-errno`). -/
def map_loop (o : SysOracle) :
    camera_ctx → Nat → Nat → Int × camera_ctx × List CamEvent
  | s, _, 0 => (0, s, [])
  | s, i, Nat.succ fuel =>
    match o.querybufRes i with
    | SysRes.fail e => (-(e : Int), s, [])
    | SysRes.ok =>
      match o.mmapRes i with
      | SysRes.fail e =>
        let s1 := setBuf s i ⟨MapState.mapFailed, o.buflen i⟩
        let p := cleanup_buffers s1
        (-(e : Int), { p.1 with buffers := none }, p.2)
      | SysRes.ok =>
        let s1 := setBuf s i ⟨MapState.mapped, o.buflen i⟩
        let q := map_loop o s1 (i + 1) fuel
        (q.1, q.2.1, CamEvent.mmapDone i (o.buflen i) :: q.2.2)

/-- Embeds `map_buffers` (camera.c:239-286): `calloc` the descriptor array
(on failure return `-errno`), set `n_buffers = req.count`, then map each
buffer. -/
def map_buffers (o : SysOracle) (s : camera_ctx) :
    Int × camera_ctx × List CamEvent :=
  match o.callocRes with
  | SysRes.fail e => (-(e : Int), { s with buffers := none }, [])
  | SysRes.ok =>
    let s1 := { s with buffers := some (List.replicate s.req_count dftBuf),
                       n_buffers := s.req_count }
    let q := map_loop o s1 0 s1.n_buffers
    (q.1, q.2.1, CamEvent.callocBuffers :: q.2.2)

/-- The `VIDIOC_QBUF` loop of `queue_buffers` (camera.c:301-319). -/
def queue_loop (o : SysOracle) :
    camera_ctx → Nat → Nat → Int × camera_ctx × List CamEvent
  | s, _, 0 => (0, s, [])
  | s, i, Nat.succ fuel =>
    match o.qbufRes i with
    | SysRes.fail e => (-(e : Int), s, [])
    | SysRes.ok => queue_loop o s (i + 1) fuel

/-- Embeds `queue_buffers` (camera.c:301-319). -/
def queue_buffers (o : SysOracle) (s : camera_ctx) :
    Int × camera_ctx × List CamEvent :=
  queue_loop o s 0 s.n_buffers

/-- Embeds `led_stream_on` (camera.c:456-464): issue `CAM_IOC_START`; the LED
signal is attempted unconditionally, the result reports the ioctl
outcome. -/
def led_stream_on (o : SysOracle) : Int × List CamEvent :=
  (match o.ledOnRes with
   | SysRes.ok => 0
   | SysRes.fail e => -(e : Int),
   [CamEvent.ledGreen])

/-- Embeds `led_stream_off` (camera.c:476-484): issue `CAM_IOC_STOP`. -/
def led_stream_off (o : SysOracle) : Int × List CamEvent :=
  (match o.ledOffRes with
   | SysRes.ok => 0
   | SysRes.fail e => -(e : Int),
   [CamEvent.ledRed])

/-- Embeds `start_stream` (camera.c:335-351): `VIDIOC_STREAMON` (on failure
return `-errno` without signalling); on success call `led_stream_on`,
ignore its result, and return 0. -/
def start_stream (o : SysOracle) (s : camera_ctx) :
    Int × camera_ctx × List CamEvent :=
  match o.streamonRes with
  | SysRes.fail e => (-(e : Int), s, [])
  | SysRes.ok =>
    let led := led_stream_on o
    (0, s, CamEvent.streamOnDev :: led.2)

/-- The `errno` for an `ioctl` on an invalid descriptor. -/
def EBADF : Nat := 9

/-- Embeds `stop_stream` (camera.c:428-444): `VIDIOC_STREAMOFF` — on a closed
descriptor (`cam_fd < 0`) the `ioctl` fails deterministically with
`EBADF`; on failure return `-errno` without signalling; on success call
`led_stream_off`, ignore its result, and return 0. -/
def stop_stream (o : SysOracle) (s : camera_ctx) :
    Int × camera_ctx × List CamEvent :=
  if s.cam_fd < 0 then (-(EBADF : Int), s, [])
  else
    match o.streamoffRes with
    | SysRes.fail e => (-(e : Int), s, [])
    | SysRes.ok =>
      let led := led_stream_off o
      (0, s, CamEvent.streamOffDev :: led.2)

/-- Embeds `close_camera` (camera.c:101-119): `stop_stream` (result ignored),
`cleanup_buffers`, then close each descriptor that is `>= 0` and reset it
to `-1`. -/
def close_camera (o : SysOracle) (s : camera_ctx) :
    camera_ctx × List CamEvent :=
  let p1 := stop_stream o s
  let p2 := cleanup_buffers p1.2.1
  let p3 : camera_ctx × List CamEvent :=
    if 0 ≤ p2.1.cam_fd then
      ({ p2.1 with cam_fd := -1 }, [CamEvent.closedFd p2.1.cam_fd.toNat])
    else (p2.1, [])
  let p4 : camera_ctx × List CamEvent :=
    if 0 ≤ p3.1.dev_fd then
      ({ p3.1 with dev_fd := -1 }, [CamEvent.closedFd p3.1.dev_fd.toNat])
    else (p3.1, [])
  (p4.1, p1.2.2 ++ p2.2 ++ p3.2 ++ p4.2)

/-- Embeds `initialize_camera` (camera.c:64-83): zero the context, set both
descriptors to `-1`, run the six setup steps in order; on the first
failure run `close_camera` and return `-1`. -/
def init_camera (o : SysOracle) : Int × camera_ctx × List CamEvent :=
  let s0 : camera_ctx :=
    { dev_fd := -1, cam_fd := -1, req_count := 0, buffers := none, n_buffers := 0 }
  let p1 := open_control_device o s0
  if p1.1 < 0 then
    let c := close_camera o p1.2.1
    (-1, c.1, p1.2.2 ++ c.2)
  else
    let p2 := configure_camera o p1.2.1
    if p2.1 < 0 then
      let c := close_camera o p2.2.1
      (-1, c.1, p1.2.2 ++ p2.2.2 ++ c.2)
    else
      let p3 := request_mmap_buffers o p2.2.1
      if p3.1 < 0 then
        let c := close_camera o p3.2.1
        (-1, c.1, p1.2.2 ++ p2.2.2 ++ p3.2.2 ++ c.2)
      else
        let p4 := map_buffers o p3.2.1
        if p4.1 < 0 then
          let c := close_camera o p4.2.1
          (-1, c.1, p1.2.2 ++ p2.2.2 ++ p3.2.2 ++ p4.2.2 ++ c.2)
        else
          let p5 := queue_buffers o p4.2.1
          if p5.1 < 0 then
            let c := close_camera o p5.2.1
            (-1, c.1, p1.2.2 ++ p2.2.2 ++ p3.2.2 ++ p4.2.2 ++ p5.2.2 ++ c.2)
          else
            let p6 := start_stream o p5.2.1
            if p6.1 < 0 then
              let c := close_camera o p6.2.1
              (-1, c.1,
               p1.2.2 ++ p2.2.2 ++ p3.2.2 ++ p4.2.2 ++ p5.2.2 ++ p6.2.2 ++ c.2)
            else
              (0, p6.2.1, p1.2.2 ++ p2.2.2 ++ p3.2.2 ++ p4.2.2 ++ p5.2.2 ++ p6.2.2)

/-! ## Concrete fixtures used by the closed theorems below -/

/-- A 4×2 uniform-gray YUYV frame: 16 bytes of 128 (two scanlines of four
pixels). -/
def grayFrame : yuyv_frame := ⟨List.replicate 16 128, 4, 2⟩

/-- The same bytes declared as a 4×480 frame. -/
def grayFrameTall : yuyv_frame := ⟨List.replicate 16 128, 4, 480⟩

/-- An entry function standing for the uninitialised C pointer array. -/
def e0 : Nat → Nat := fun _ => 0

/-- A socket oracle that accepts every write in full. -/
def sockOK : Nat → Option Nat := fun _ => some 100000

/-- A system oracle on which every call succeeds. -/
def oracleOK : SysOracle :=
  { openDev := some 3
    openCam := Except.ok 4
    sfmtRes := SysRes.ok
    reqbufsRes := SysRes.ok
    callocRes := SysRes.ok
    querybufRes := fun _ => SysRes.ok
    buflen := fun _ => 614400
    mmapRes := fun _ => SysRes.ok
    qbufRes := fun _ => SysRes.ok
    streamonRes := SysRes.ok
    streamoffRes := SysRes.ok
    ledOnRes := SysRes.ok
    ledOffRes := SysRes.ok }

/-- A system oracle whose control-device `open` fails. -/
def oracleNoDev : SysOracle :=
  { oracleOK with openDev := none }

/-- An open streaming session: both descriptors valid, one mapped buffer. -/
def ctxSession : camera_ctx :=
  { dev_fd := 3, cam_fd := 4, req_count := 4,
    buffers := some [MappedBuf.mk MapState.mapped 64], n_buffers := 1 }

/-- A system oracle on which both LED signal ioctls fail. -/
def oracleLedFail : SysOracle :=
  { oracleOK with ledOnRes := SysRes.fail 5, ledOffRes := SysRes.fail 5 }

/-! ### Helper lemmas for the ring representation -/

theorem contentsAux_length {α : Type} :
    ∀ (n : Nat) (e : Nat → α) (t : Nat), (contentsAux e t n).length = n := by
  intro n
  induction n with
  | zero => intro e t; rfl
  | succ n ih => intro e t; simp [contentsAux, ih]

theorem contentsAux_congr_mod {α : Type} :
    ∀ (n : Nat) (e : Nat → α) (t t' : Nat),
      t % BUFFER_SIZE = t' % BUFFER_SIZE → contentsAux e t n = contentsAux e t' n := by
  intro n
  induction n with
  | zero => intro e t t' _; rfl
  | succ n ih =>
    intro e t t' h
    simp only [contentsAux, h]
    refine congrArg _ (ih e (t + 1) (t' + 1) ?_)
    simp only [BUFFER_SIZE] at h ⊢
    omega

theorem contentsAux_snoc {α : Type} :
    ∀ (n : Nat) (e : Nat → α) (t : Nat),
      contentsAux e t (n + 1) = contentsAux e t n ++ [e ((t + n) % BUFFER_SIZE)] := by
  intro n
  induction n with
  | zero => intro e t; simp [contentsAux]
  | succ n ih =>
    intro e t
    calc contentsAux e t (n + 1 + 1)
        = e (t % BUFFER_SIZE) :: contentsAux e (t + 1) (n + 1) := rfl
      _ = e (t % BUFFER_SIZE) :: (contentsAux e (t + 1) n ++ [e ((t + 1 + n) % BUFFER_SIZE)]) := by
          rw [ih]
      _ = contentsAux e t (n + 1) ++ [e ((t + (n + 1)) % BUFFER_SIZE)] := by
          have hidx : t + 1 + n = t + (n + 1) := by omega
          rw [hidx]
          simp [contentsAux]

theorem contentsAux_upd {α : Type} :
    ∀ (n : Nat) (e : Nat → α) (t h : Nat) (f : α),
      (∀ i, i < n → (t + i) % BUFFER_SIZE ≠ h) →
      contentsAux (fun j => if j = h then f else e j) t n = contentsAux e t n := by
  intro n
  induction n with
  | zero => intro e t h f _; rfl
  | succ n ih =>
    intro e t h f hne
    have h0 : t % BUFFER_SIZE ≠ h := by
      have := hne 0 (Nat.succ_pos n)
      simpa using this
    simp only [contentsAux, if_neg h0]
    refine congrArg _ (ih e (t + 1) h f ?_)
    intro i hi
    have := hne (i + 1) (by omega)
    have heq : t + 1 + i = t + (i + 1) := by omega
    rw [heq]
    exact this

theorem wf_init {α : Type} (e : Nat → α) : WF (circular_buffer_init e) := by
  constructor <;> simp [circular_buffer_init, BUFFER_SIZE]

theorem wf_write {α : Type} (cb : CircularBuffer α) (f : α) (h : WF cb) :
    WF (cb_write cb f) := by
  obtain ⟨h1, h2⟩ := h
  constructor
  · simp only [cb_write, BUFFER_SIZE] at *
    omega
  · simp only [cb_write, BUFFER_SIZE] at *
    split <;> omega

theorem wf_read {α : Type} (cb : CircularBuffer α) (h : WF cb) :
    WF (cb_read cb).2 := by
  obtain ⟨h1, h2⟩ := h
  simp only [cb_read]
  split
  · exact ⟨h1, h2⟩
  · constructor
    · exact h1
    · simp only [BUFFER_SIZE] at *
      omega

theorem wf_step {α : Type} (cb : CircularBuffer α) (op : Op α) (h : WF cb) :
    WF (step cb op) := by
  cases op with
  | write f => exact wf_write cb f h
  | read => exact wf_read cb h

theorem wf_run {α : Type} (ops : List (Op α)) :
    ∀ (cb : CircularBuffer α), WF cb → WF (run cb ops) := by
  induction ops with
  | nil => intro cb h; exact h
  | cons op rest ih =>
    intro cb h
    exact ih (step cb op) (wf_step cb op h)

/-- Effect of `cb_write` on the live contents: append when not full, drop
the oldest then append when full. -/
theorem contents_cb_write {α : Type} (cb : CircularBuffer α) (f : α) (hw : WF cb) :
    contents (cb_write cb f) =
      if size cb = BUFFER_SIZE - 1 then (contents cb).drop 1 ++ [f]
      else contents cb ++ [f] := by
  obtain ⟨hh, ht⟩ := hw
  simp only [BUFFER_SIZE] at hh ht
  by_cases hfull : (cb.head + 1) % BUFFER_SIZE = cb.tail
  · -- full case: post-advance head equals tail
    have hsz : size cb = 9 := by
      simp only [size, BUFFER_SIZE] at *
      omega
    have hsz' : size (cb_write cb f) = 9 := by
      simp only [size, cb_write, BUFFER_SIZE] at *
      simp only [if_pos hfull]
      omega
    have hnine : BUFFER_SIZE - 1 = 9 := rfl
    rw [hnine, hsz, if_pos rfl]
    -- new state: entries updated at head, head' = tail, tail' = tail + 1 mod
    have hcont : contents (cb_write cb f) =
        contentsAux (fun j => if j = cb.head then f else cb.entries j)
          ((cb.tail + 1) % BUFFER_SIZE) 9 := by
      simp only [contents]
      rw [hsz']
      simp only [cb_write, if_pos hfull]
    rw [hcont]
    have hmod : ((cb.tail + 1) % BUFFER_SIZE) % BUFFER_SIZE = (cb.tail + 1) % BUFFER_SIZE := by
      simp only [BUFFER_SIZE]; omega
    rw [contentsAux_congr_mod 9 _ _ (cb.tail + 1) hmod]
    have hsnoc := contentsAux_snoc (α := α) 8
        (fun j => if j = cb.head then f else cb.entries j) (cb.tail + 1)
    rw [hsnoc]
    have hidx : (cb.tail + 1 + 8) % BUFFER_SIZE = cb.head := by
      simp only [BUFFER_SIZE] at *
      omega
    rw [hidx]
    simp only [if_pos rfl]
    have hupd : contentsAux (fun j => if j = cb.head then f else cb.entries j)
        (cb.tail + 1) 8 = contentsAux cb.entries (cb.tail + 1) 8 := by
      refine contentsAux_upd 8 cb.entries (cb.tail + 1) cb.head f ?_
      intro i hi
      simp only [BUFFER_SIZE] at *
      omega
    rw [hupd]
    -- old contents: e (tail) :: contentsAux e (tail+1) 8
    have hold : contents cb = cb.entries (cb.tail % BUFFER_SIZE) ::
        contentsAux cb.entries (cb.tail + 1) 8 := by
      simp only [contents, hsz]
      rfl
    rw [hold]
    simp
  · -- not-full case: tail unchanged, size grows by one
    have hsz : size cb ≠ 9 := by
      simp only [size, BUFFER_SIZE] at *
      omega
    have hnine : BUFFER_SIZE - 1 = 9 := rfl
    rw [hnine, if_neg hsz]
    have hsz' : size (cb_write cb f) = size cb + 1 := by
      simp only [size, cb_write, BUFFER_SIZE] at *
      simp only [if_neg hfull]
      omega
    have hcont : contents (cb_write cb f) =
        contentsAux (fun j => if j = cb.head then f else cb.entries j)
          cb.tail (size cb + 1) := by
      simp only [contents]
      rw [hsz']
      simp only [cb_write, if_neg hfull]
    rw [hcont, contentsAux_snoc]
    have hidx : (cb.tail + size cb) % BUFFER_SIZE = cb.head := by
      simp only [size, BUFFER_SIZE] at *
      omega
    rw [hidx]
    simp only [if_pos rfl]
    have hupd : contentsAux (fun j => if j = cb.head then f else cb.entries j)
        cb.tail (size cb) = contentsAux cb.entries cb.tail (size cb) := by
      refine contentsAux_upd (size cb) cb.entries cb.tail cb.head f ?_
      intro i hi
      simp only [size, BUFFER_SIZE] at *
      omega
    rw [hupd]
    rfl

/-- Effect of `cb_read` on a nonempty buffer: it returns the oldest entry
and the remaining contents drop it. -/
theorem contents_cb_read {α : Type} (cb : CircularBuffer α) (hw : WF cb)
    (hne : cb.head ≠ cb.tail) :
    (cb_read cb).1 = some (cb.entries cb.tail) ∧
      contents cb = cb.entries cb.tail :: contents (cb_read cb).2 := by
  obtain ⟨hh, ht⟩ := hw
  simp only [BUFFER_SIZE] at hh ht
  have hsz : 1 ≤ size cb := by
    simp only [size, BUFFER_SIZE]
    omega
  constructor
  · simp [cb_read, if_neg hne]
  · have hszeq : size cb = (size cb - 1) + 1 := by omega
    have hsz2 : size (cb_read cb).2 = size cb - 1 := by
      simp only [cb_read, if_neg hne, size, BUFFER_SIZE] at *
      omega
    have hleft : contents cb = cb.entries (cb.tail % BUFFER_SIZE) ::
        contentsAux cb.entries (cb.tail + 1) (size cb - 1) := by
      simp only [contents]
      rw [hszeq]
      rfl
    have htl : cb.tail % BUFFER_SIZE = cb.tail := by
      simp only [BUFFER_SIZE]; omega
    rw [hleft, htl]
    refine congrArg _ ?_
    have hright : contents (cb_read cb).2 =
        contentsAux cb.entries ((cb.tail + 1) % BUFFER_SIZE) (size cb - 1) := by
      simp only [contents]
      rw [hsz2]
      simp only [cb_read, if_neg hne]
    rw [hright]
    have hmod : ((cb.tail + 1) % BUFFER_SIZE) % BUFFER_SIZE = (cb.tail + 1) % BUFFER_SIZE := by
      simp only [BUFFER_SIZE]; omega
    exact (contentsAux_congr_mod _ _ _ _ hmod).symm

/-- Writes into a buffer with enough free room append to the contents. -/
theorem contents_writeAll {α : Type} :
    ∀ (fs : List α) (cb : CircularBuffer α), WF cb →
      (contents cb).length + fs.length ≤ BUFFER_SIZE - 1 →
      contents (writeAll cb fs) = contents cb ++ fs ∧ WF (writeAll cb fs) := by
  intro fs
  induction fs with
  | nil =>
    intro cb hwf _
    exact ⟨by simp [writeAll], hwf⟩
  | cons f rest ih =>
    intro cb hwf hroom
    simp only [List.length_cons] at hroom
    have hlen : (contents cb).length = size cb := by
      simp [contents, contentsAux_length]
    have hnotfull : size cb ≠ BUFFER_SIZE - 1 := by
      simp only [BUFFER_SIZE] at *
      omega
    have hw := contents_cb_write cb f hwf
    rw [if_neg hnotfull] at hw
    have hwf' := wf_write cb f hwf
    have hroom' : (contents (cb_write cb f)).length + rest.length ≤ BUFFER_SIZE - 1 := by
      rw [hw]
      simp only [List.length_append, List.length_cons, List.length_nil] at *
      omega
    have step : writeAll cb (f :: rest) = writeAll (cb_write cb f) rest := rfl
    rw [step]
    obtain ⟨hc, hwfr⟩ := ih (cb_write cb f) hwf' hroom'
    refine ⟨?_, hwfr⟩
    rw [hc, hw]
    simp

/-- Draining exactly `(contents cb).length` reads returns the contents. -/
theorem drain_contents {α : Type} :
    ∀ (n : Nat) (cb : CircularBuffer α), WF cb → (contents cb).length = n →
      drainAux n cb = contents cb := by
  intro n
  induction n with
  | zero =>
    intro cb _ hlen
    have : contents cb = [] := List.eq_nil_of_length_eq_zero hlen
    simp [drainAux, this]
  | succ n ih =>
    intro cb hwf hlen
    have hlen' : size cb = n + 1 := by
      have : (contents cb).length = size cb := by
        simp [contents, contentsAux_length]
      omega
    have hne : cb.head ≠ cb.tail := by
      intro h
      obtain ⟨h1, h2⟩ := hwf
      simp only [size, BUFFER_SIZE, h] at hlen'
      omega
    obtain ⟨hval, hcons⟩ := contents_cb_read cb hwf hne
    have hwf' := wf_read cb hwf
    have hlen2 : (contents (cb_read cb).2).length = n := by
      have := congrArg List.length hcons
      simp only [List.length_cons] at this
      omega
    have hrec := ih (cb_read cb).2 hwf' hlen2
    have : drainAux (n + 1) cb = cb.entries cb.tail :: drainAux n (cb_read cb).2 := by
      simp only [drainAux]
      have hread : cb_read cb = ((cb_read cb).1, (cb_read cb).2) := rfl
      rw [hread, hval]
    rw [this, hrec, hcons]

/-! ### Helper lemmas for the camera lifecycle -/

theorem stop_stream_state (o : SysOracle) (s : camera_ctx) :
    (stop_stream o s).2.1 = s := by
  unfold stop_stream
  split
  · rfl
  · rcases h : o.streamoffRes with _ | e <;> simp [h, led_stream_off]

theorem stop_stream_evs (o : SysOracle) (s : camera_ctx) :
    ∀ ev ∈ (stop_stream o s).2.2,
      ev = CamEvent.streamOffDev ∨ ev = CamEvent.ledRed := by
  unfold stop_stream
  split
  · intro ev h
    simp at h
  · rcases h : o.streamoffRes with _ | e
    · intro ev hm
      simp [h, led_stream_off] at hm
      exact hm
    · intro ev hm
      simp [h] at hm

theorem cleanup_buffers_fds (s : camera_ctx) :
    (cleanup_buffers s).1.dev_fd = s.dev_fd ∧
    (cleanup_buffers s).1.cam_fd = s.cam_fd := by
  unfold cleanup_buffers
  rcases hb : s.buffers with _ | bs <;> simp

theorem cleanup_buffers_buffers (s : camera_ctx) :
    (cleanup_buffers s).1.buffers = none := by
  unfold cleanup_buffers
  rcases hb : s.buffers with _ | bs <;> simp [hb]

theorem cleanup_buffers_nbuf (s : camera_ctx)
    (h : s.buffers = none → s.n_buffers = 0) :
    (cleanup_buffers s).1.n_buffers = 0 := by
  unfold cleanup_buffers
  rcases hb : s.buffers with _ | bs
  · simp only [hb]
    exact h hb
  · simp

theorem munmapUpTo_mem (bs : List MappedBuf) :
    ∀ (n i : Nat), i < n → (bufAt bs i).start = MapState.mapped →
      CamEvent.munmapDone i (bufAt bs i).length ∈ munmapUpTo bs n := by
  intro n
  induction n with
  | zero =>
    intro i hi _
    exact absurd hi (Nat.not_lt_zero i)
  | succ n ih =>
    intro i hi hm
    rcases Nat.lt_succ_iff_lt_or_eq.mp hi with h | rfl
    · exact List.mem_append.mpr (Or.inl (ih i h hm))
    · refine List.mem_append.mpr (Or.inr ?_)
      rw [hm]
      simp

theorem munmapUpTo_shape (bs : List MappedBuf) :
    ∀ n, ∀ ev ∈ munmapUpTo bs n, ∃ i l, ev = CamEvent.munmapDone i l := by
  intro n
  induction n with
  | zero =>
    intro ev h
    simp [munmapUpTo] at h
  | succ n ih =>
    intro ev h
    simp only [munmapUpTo] at h
    rcases List.mem_append.mp h with h | h
    · exact ih ev h
    · revert h
      rcases hms : (bufAt bs n).start with _ | _ | _
      · intro h
        simp at h
      · intro h
        simp at h
      · intro h
        simp at h
        exact ⟨n, (bufAt bs n).length, h⟩

theorem cleanup_buffers_munmap (s : camera_ctx) (bs : List MappedBuf) (i : Nat)
    (hb : s.buffers = some bs) (hi : i < s.n_buffers)
    (hm : (bufAt bs i).start = MapState.mapped) :
    CamEvent.munmapDone i (bufAt bs i).length ∈ (cleanup_buffers s).2 := by
  unfold cleanup_buffers
  simp only [hb]
  exact List.mem_append.mpr (Or.inl (munmapUpTo_mem bs s.n_buffers i hi hm))

theorem cleanup_buffers_free (s : camera_ctx) (bs : List MappedBuf)
    (hb : s.buffers = some bs) :
    CamEvent.freeBuffers ∈ (cleanup_buffers s).2 := by
  unfold cleanup_buffers
  simp [hb]

theorem cleanup_buffers_ev_shape (s : camera_ctx) :
    ∀ ev ∈ (cleanup_buffers s).2,
      ev = CamEvent.freeBuffers ∨ ∃ i l, ev = CamEvent.munmapDone i l := by
  unfold cleanup_buffers
  rcases hb : s.buffers with _ | bs
  · intro ev h
    simp at h
  · intro ev h
    simp only at h
    rcases List.mem_append.mp h with h | h
    · exact Or.inr (munmapUpTo_shape bs s.n_buffers ev h)
    · simp at h
      exact Or.inl h

theorem close_camera_dev (o : SysOracle) (s : camera_ctx) :
    (close_camera o s).1.dev_fd = if 0 ≤ s.dev_fd then -1 else s.dev_fd := by
  simp only [close_camera]
  rw [stop_stream_state]
  have hfd := (cleanup_buffers_fds s).1
  have hfc := (cleanup_buffers_fds s).2
  by_cases hc : 0 ≤ (cleanup_buffers s).1.cam_fd <;>
    by_cases hd : 0 ≤ s.dev_fd <;>
      simp [hc, hd, hfd]

theorem close_camera_cam (o : SysOracle) (s : camera_ctx) :
    (close_camera o s).1.cam_fd = if 0 ≤ s.cam_fd then -1 else s.cam_fd := by
  simp only [close_camera]
  rw [stop_stream_state]
  have hfc := (cleanup_buffers_fds s).2
  by_cases hc : 0 ≤ s.cam_fd <;>
    by_cases hd : 0 ≤ (cleanup_buffers s).1.dev_fd <;>
      simp [hc, hd, hfc]

theorem close_camera_buffers (o : SysOracle) (s : camera_ctx) :
    (close_camera o s).1.buffers = none := by
  simp only [close_camera]
  rw [stop_stream_state]
  have hb := cleanup_buffers_buffers s
  by_cases hc : 0 ≤ (cleanup_buffers s).1.cam_fd <;>
    by_cases hd : 0 ≤ (cleanup_buffers s).1.dev_fd <;>
      simp [hc, hd, hb]

theorem close_camera_nbuf (o : SysOracle) (s : camera_ctx)
    (h : s.buffers = none → s.n_buffers = 0) :
    (close_camera o s).1.n_buffers = 0 := by
  simp only [close_camera]
  rw [stop_stream_state]
  have hn := cleanup_buffers_nbuf s h
  by_cases hc : 0 ≤ (cleanup_buffers s).1.cam_fd <;>
    by_cases hd : 0 ≤ (cleanup_buffers s).1.dev_fd <;>
      simp [hc, hd, hn]

theorem close_camera_closes_dev (o : SysOracle) (s : camera_ctx)
    (h : 0 ≤ s.dev_fd) :
    CamEvent.closedFd s.dev_fd.toNat ∈ (close_camera o s).2 := by
  simp only [close_camera]
  rw [stop_stream_state]
  have hfd := (cleanup_buffers_fds s).1
  by_cases hc : 0 ≤ (cleanup_buffers s).1.cam_fd <;>
    simp [hc, hfd, h]

theorem close_camera_closes_cam (o : SysOracle) (s : camera_ctx)
    (h : 0 ≤ s.cam_fd) :
    CamEvent.closedFd s.cam_fd.toNat ∈ (close_camera o s).2 := by
  simp only [close_camera]
  rw [stop_stream_state]
  have hfc := (cleanup_buffers_fds s).2
  by_cases hd : 0 ≤ (cleanup_buffers s).1.dev_fd <;>
    simp [hd, hfc, h]

theorem close_camera_munmaps (o : SysOracle) (s : camera_ctx)
    (bs : List MappedBuf) (i : Nat) (hb : s.buffers = some bs)
    (hi : i < s.n_buffers) (hm : (bufAt bs i).start = MapState.mapped) :
    CamEvent.munmapDone i (bufAt bs i).length ∈ (close_camera o s).2 := by
  simp only [close_camera]
  rw [stop_stream_state]
  have hmem := cleanup_buffers_munmap s bs i hb hi hm
  exact List.mem_append.mpr (Or.inl (List.mem_append.mpr
    (Or.inl (List.mem_append.mpr (Or.inr hmem)))))

theorem close_camera_frees (o : SysOracle) (s : camera_ctx)
    (bs : List MappedBuf) (hb : s.buffers = some bs) :
    CamEvent.freeBuffers ∈ (close_camera o s).2 := by
  simp only [close_camera]
  rw [stop_stream_state]
  have hmem := cleanup_buffers_free s bs hb
  exact List.mem_append.mpr (Or.inl (List.mem_append.mpr
    (Or.inl (List.mem_append.mpr (Or.inr hmem)))))

theorem close_camera_ev_shape (o : SysOracle) (s : camera_ctx) :
    ∀ ev ∈ (close_camera o s).2,
      ev = CamEvent.streamOffDev ∨ ev = CamEvent.ledRed ∨
      ev = CamEvent.freeBuffers ∨ (∃ i l, ev = CamEvent.munmapDone i l) ∨
      (∃ fd, ev = CamEvent.closedFd fd) := by
  intro ev h
  simp only [close_camera] at h
  rw [stop_stream_state] at h
  rcases List.mem_append.mp h with h | h4
  · rcases List.mem_append.mp h with h | h3
    · rcases List.mem_append.mp h with h1 | h2
      · rcases stop_stream_evs o s ev h1 with h | h
        · exact Or.inl h
        · exact Or.inr (Or.inl h)
      · rcases cleanup_buffers_ev_shape _ ev h2 with h | ⟨i, l, h⟩
        · exact Or.inr (Or.inr (Or.inl h))
        · exact Or.inr (Or.inr (Or.inr (Or.inl ⟨i, l, h⟩)))
    · revert h3
      by_cases hc : 0 ≤ (cleanup_buffers s).1.cam_fd <;> simp [hc]
      intro h3
      exact Or.inr (Or.inr (Or.inr (Or.inr ⟨_, h3⟩)))
  · revert h4
    by_cases hc : 0 ≤ (cleanup_buffers s).1.cam_fd <;>
      by_cases hd : 0 ≤ (cleanup_buffers s).1.dev_fd <;> simp [hc, hd]
    all_goals intro h4
    all_goals exact Or.inr (Or.inr (Or.inr (Or.inr ⟨_, h4⟩)))

/-- Teardown after a failed setup step: if the pre-teardown state `sPre`
records every resource still pending (acquire events in `evsAcq` that are
not already matched there), then `close_camera` closes everything and the
combined trace is leak-free. -/
theorem c6_generic (o : SysOracle) (sPre : camera_ctx) (evsAcq : List CamEvent)
    (hdev0 : -1 ≤ sPre.dev_fd) (hcam0 : -1 ≤ sPre.cam_fd)
    (hnb : sPre.buffers = none → sPre.n_buffers = 0)
    (hopen : ∀ fd, CamEvent.openedFd fd ∈ evsAcq →
      CamEvent.closedFd fd ∈ evsAcq ∨ sPre.dev_fd = (fd : Int) ∨
        sPre.cam_fd = (fd : Int))
    (hmaps : ∀ i l, CamEvent.mmapDone i l ∈ evsAcq →
      CamEvent.munmapDone i l ∈ evsAcq ∨
      (∃ bs, sPre.buffers = some bs ∧ i < sPre.n_buffers ∧
        bufAt bs i = MappedBuf.mk MapState.mapped l))
    (hallo : CamEvent.callocBuffers ∈ evsAcq →
      CamEvent.freeBuffers ∈ evsAcq ∨ ∃ bs, sPre.buffers = some bs) :
    (close_camera o sPre).1.dev_fd = -1 ∧ (close_camera o sPre).1.cam_fd = -1 ∧
    (close_camera o sPre).1.buffers = none ∧
    (close_camera o sPre).1.n_buffers = 0 ∧
    (∀ fd, CamEvent.openedFd fd ∈ evsAcq ++ (close_camera o sPre).2 →
      CamEvent.closedFd fd ∈ evsAcq ++ (close_camera o sPre).2) ∧
    (∀ i l, CamEvent.mmapDone i l ∈ evsAcq ++ (close_camera o sPre).2 →
      CamEvent.munmapDone i l ∈ evsAcq ++ (close_camera o sPre).2) ∧
    (CamEvent.callocBuffers ∈ evsAcq ++ (close_camera o sPre).2 →
      CamEvent.freeBuffers ∈ evsAcq ++ (close_camera o sPre).2) := by
  have hd1 : (close_camera o sPre).1.dev_fd = -1 := by
    rw [close_camera_dev]
    split_ifs with h
    · rfl
    · omega
  have hc1 : (close_camera o sPre).1.cam_fd = -1 := by
    rw [close_camera_cam]
    split_ifs with h
    · rfl
    · omega
  refine ⟨hd1, hc1, close_camera_buffers o sPre, close_camera_nbuf o sPre hnb,
    ?_, ?_, ?_⟩
  · intro fd hm'
    rcases List.mem_append.mp hm' with h | h
    · rcases hopen fd h with h2 | h2 | h2
      · exact List.mem_append.mpr (Or.inl h2)
      · have h0 : 0 ≤ sPre.dev_fd := by rw [h2]; exact Int.natCast_nonneg fd
        have hcl := close_camera_closes_dev o sPre h0
        rw [h2, Int.toNat_natCast] at hcl
        exact List.mem_append.mpr (Or.inr hcl)
      · have h0 : 0 ≤ sPre.cam_fd := by rw [h2]; exact Int.natCast_nonneg fd
        have hcl := close_camera_closes_cam o sPre h0
        rw [h2, Int.toNat_natCast] at hcl
        exact List.mem_append.mpr (Or.inr hcl)
    · rcases close_camera_ev_shape o sPre _ h with h2 | h2 | h2 | ⟨i, l, h2⟩ | ⟨fd2, h2⟩ <;>
        simp at h2
  · intro i l hm'
    rcases List.mem_append.mp hm' with h | h
    · rcases hmaps i l h with h2 | ⟨bs, hb, hi, hv⟩
      · exact List.mem_append.mpr (Or.inl h2)
      · have hcl := close_camera_munmaps o sPre bs i hb hi (by rw [hv])
        rw [hv] at hcl
        exact List.mem_append.mpr (Or.inr hcl)
    · rcases close_camera_ev_shape o sPre _ h with h2 | h2 | h2 | ⟨i2, l2, h2⟩ | ⟨fd2, h2⟩ <;>
        simp at h2
  · intro hm'
    rcases List.mem_append.mp hm' with h | h
    · rcases hallo h with h2 | ⟨bs, hb⟩
      · exact List.mem_append.mpr (Or.inl h2)
      · exact List.mem_append.mpr (Or.inr (close_camera_frees o sPre bs hb))
    · rcases close_camera_ev_shape o sPre _ h with h2 | h2 | h2 | ⟨i2, l2, h2⟩ | ⟨fd2, h2⟩ <;>
        simp at h2

/-- Result and trace of the `VIDIOC_QBUF` loop: the state is never
modified, no events are emitted, and the result is 0 or `-errno` of some
failing `VIDIOC_QBUF`. -/
theorem queue_loop_cases (o : SysOracle) :
    ∀ (fuel i : Nat) (s : camera_ctx),
      (queue_loop o s i fuel).2.1 = s ∧ (queue_loop o s i fuel).2.2 = [] ∧
      ((queue_loop o s i fuel).1 = 0 ∨
        ∃ j e, o.qbufRes j = SysRes.fail e ∧
          (queue_loop o s i fuel).1 = -(e : Int)) := by
  intro fuel
  induction fuel with
  | zero =>
    intro i s
    exact ⟨rfl, rfl, Or.inl rfl⟩
  | succ fuel ih =>
    intro i s
    rcases hq : o.qbufRes i with _ | e
    · have := ih (i + 1) s
      simpa [queue_loop, hq] using this
    · refine ⟨by simp [queue_loop, hq], by simp [queue_loop, hq], ?_⟩
      exact Or.inr ⟨i, e, hq, by simp [queue_loop, hq]⟩

theorem close_camera_noop (o : SysOracle) (s : camera_ctx)
    (h1 : s.cam_fd < 0) (h2 : s.dev_fd < 0) (h3 : s.buffers = none) :
    close_camera o s = (s, []) := by
  simp only [close_camera, stop_stream]
  rw [if_pos h1]
  simp only [cleanup_buffers, h3]
  rw [if_neg (by omega : ¬ (0 : Int) ≤ s.cam_fd)]
  rw [if_neg (by omega : ¬ (0 : Int) ≤ s.dev_fd)]
  simp

/-! ## Claim theorems -/

/-- C8: `close_camera` is an idempotent teardown: from any program state
(descriptors are valid or `-1`; `n_buffers` is zero whenever the array is
null — exactly the states the module constructs) one call leaves both
descriptors at `-1`, the buffer array null and the count zero, and a
second call returns the very same state while performing no action at all
(its event trace is empty: no `munmap`, no `free`, no `close`). -/
theorem c8_close_camera_idempotent (o o2 : SysOracle) (s : camera_ctx)
    (hdev : -1 ≤ s.dev_fd) (hcam : -1 ≤ s.cam_fd)
    (hnb : s.buffers = none → s.n_buffers = 0) :
    (close_camera o s).1.dev_fd = -1 ∧ (close_camera o s).1.cam_fd = -1 ∧
    (close_camera o s).1.buffers = none ∧ (close_camera o s).1.n_buffers = 0 ∧
    close_camera o2 (close_camera o s).1 = ((close_camera o s).1, []) := by
  have hd := close_camera_dev o s
  have hc := close_camera_cam o s
  have hb := close_camera_buffers o s
  have hn := close_camera_nbuf o s hnb
  have hd1 : (close_camera o s).1.dev_fd = -1 := by
    rw [hd]
    split_ifs with h
    · rfl
    · omega
  have hc1 : (close_camera o s).1.cam_fd = -1 := by
    rw [hc]
    split_ifs with h
    · rfl
    · omega
  refine ⟨hd1, hc1, hb, hn, ?_⟩
  exact close_camera_noop o2 (close_camera o s).1
    (by rw [hc1]; decide) (by rw [hd1]; decide) hb

/-- Witness for C8 at a concrete context (an open session with a mapped
buffer). -/
theorem c8_close_camera_idempotent_witness :
    ((-1 : Int) ≤ ctxSession.dev_fd ∧ (-1 : Int) ≤ ctxSession.cam_fd ∧
      (ctxSession.buffers = none → ctxSession.n_buffers = 0)) ∧
    ((close_camera oracleOK ctxSession).1.dev_fd = -1 ∧
      (close_camera oracleOK ctxSession).1.cam_fd = -1 ∧
      (close_camera oracleOK ctxSession).1.buffers = none ∧
      (close_camera oracleOK ctxSession).1.n_buffers = 0 ∧
      close_camera oracleOK (close_camera oracleOK ctxSession).1 =
        ((close_camera oracleOK ctxSession).1, [])) :=
  ⟨⟨by decide, by decide, fun h => absurd h (by decide)⟩,
   c8_close_camera_idempotent oracleOK oracleOK ctxSession
     (by decide) (by decide) (fun h => absurd h (by decide))⟩

/-- C9: the LED status signal is tied to stream transitions and is
non-fatal: `start_stream` issues the green signal exactly once, right
after `VIDIOC_STREAMON` succeeds, and returns 0 for every oracle (in
particular when the LED ioctl fails); on `STREAMON` failure no signal is
issued.  `stop_stream` issues the red signal exactly once after
`VIDIOC_STREAMOFF` succeeds and a LED failure does not change its result;
on `STREAMOFF` failure no signal is issued. -/
theorem c9_led_signal_non_fatal (o : SysOracle) (s : camera_ctx) :
    (o.streamonRes = SysRes.ok →
      start_stream o s = (0, s, [CamEvent.streamOnDev, CamEvent.ledGreen])) ∧
    (∀ e, o.streamonRes = SysRes.fail e →
      start_stream o s = (-(e : Int), s, [])) ∧
    (0 ≤ s.cam_fd → o.streamoffRes = SysRes.ok →
      stop_stream o s = (0, s, [CamEvent.streamOffDev, CamEvent.ledRed])) ∧
    (∀ e, 0 ≤ s.cam_fd → o.streamoffRes = SysRes.fail e →
      stop_stream o s = (-(e : Int), s, [])) := by
  refine ⟨?_, ?_, ?_, ?_⟩
  · intro h
    simp [start_stream, h, led_stream_on]
  · intro e h
    simp [start_stream, h]
  · intro hfd h
    unfold stop_stream
    rw [if_neg (by omega : ¬ s.cam_fd < 0)]
    simp [h, led_stream_off]
  · intro e hfd h
    unfold stop_stream
    rw [if_neg (by omega : ¬ s.cam_fd < 0)]
    simp [h]

/-- Witness for C9 on an oracle whose LED ioctls fail: the transitions
still succeed and each signal is issued exactly once. -/
theorem c9_led_signal_non_fatal_witness :
    (oracleLedFail.streamonRes = SysRes.ok ∧
      (0 : Int) ≤ (camera_ctx.mk 3 4 4 none 0).cam_fd ∧
      oracleLedFail.streamoffRes = SysRes.ok) ∧
    start_stream oracleLedFail (camera_ctx.mk 3 4 4 none 0) =
      (0, camera_ctx.mk 3 4 4 none 0, [CamEvent.streamOnDev, CamEvent.ledGreen]) ∧
    stop_stream oracleLedFail (camera_ctx.mk 3 4 4 none 0) =
      (0, camera_ctx.mk 3 4 4 none 0, [CamEvent.streamOffDev, CamEvent.ledRed]) :=
  ⟨⟨rfl, by decide, rfl⟩,
   (c9_led_signal_non_fatal oracleLedFail (camera_ctx.mk 3 4 4 none 0)).1 rfl,
   (c9_led_signal_non_fatal oracleLedFail (camera_ctx.mk 3 4 4 none 0)).2.2.1
     (by decide) rfl⟩

/-- C2: for every sequence of `cb_write`/`cb_read` operations starting from
the initialized queue (`head = tail = 0`), the queue never holds more than
`C−1 = 9` live entries, and `head == tail` holds if and only if the queue
is empty. -/
theorem c2_capacity_invariant {α : Type} (e : Nat → α) (ops : List (Op α)) :
    (contents (run (circular_buffer_init e) ops)).length ≤ BUFFER_SIZE - 1 ∧
    ((run (circular_buffer_init e) ops).head = (run (circular_buffer_init e) ops).tail ↔
      contents (run (circular_buffer_init e) ops) = []) := by
  obtain ⟨h1, h2⟩ := wf_run ops (circular_buffer_init e) (wf_init e)
  have hlen : (contents (run (circular_buffer_init e) ops)).length
      = size (run (circular_buffer_init e) ops) := by
    simp [contents, contentsAux_length]
  refine ⟨?_, ?_, ?_⟩
  · rw [hlen]
    simp only [size, BUFFER_SIZE] at *
    omega
  · intro hht
    refine List.eq_nil_of_length_eq_zero ?_
    rw [hlen]
    simp only [size, BUFFER_SIZE, hht] at *
    omega
  · intro hnil
    have h0 : size (run (circular_buffer_init e) ops) = 0 := by
      rw [← hlen, hnil]
      rfl
    simp only [size, BUFFER_SIZE] at *
    omega

/-- C3: writes `f1..fk` with `k ≤ C−1` into an empty queue followed by `k`
reads return `f1..fk` in FIFO order; and `cb_read` on an empty queue
(`head == tail`) fails with `none` and leaves the whole state (head, tail
and every entry) unmodified. -/
theorem c3_fifo_order {α : Type} (e : Nat → α) (fs : List α) (cb : CircularBuffer α)
    (hlen : fs.length ≤ BUFFER_SIZE - 1) (hempty : cb.head = cb.tail) :
    drainAux fs.length (writeAll (circular_buffer_init e) fs) = fs ∧
    cb_read cb = (none, cb) := by
  constructor
  · have hinit : contents (circular_buffer_init e) = [] := by
      simp [contents, circular_buffer_init, size, BUFFER_SIZE, contentsAux]
    have hroom : (contents (circular_buffer_init e)).length + fs.length ≤ BUFFER_SIZE - 1 := by
      rw [hinit]
      simpa using hlen
    obtain ⟨hc, hwf'⟩ := contents_writeAll fs (circular_buffer_init e) (wf_init e) hroom
    rw [hinit] at hc
    simp only [List.nil_append] at hc
    have hlen2 : (contents (writeAll (circular_buffer_init e) fs)).length = fs.length := by
      rw [hc]
    have hdr := drain_contents fs.length (writeAll (circular_buffer_init e) fs) hwf' hlen2
    rw [hdr, hc]
  · simp [cb_read, hempty]

/-- Witness for C3 at a concrete input: three writes then three reads. -/
theorem c3_fifo_order_witness :
    (([5, 6, 7] : List Nat).length ≤ BUFFER_SIZE - 1 ∧
      (circular_buffer_init e0).head = (circular_buffer_init e0).tail) ∧
    (drainAux ([5, 6, 7] : List Nat).length
        (writeAll (circular_buffer_init e0) [5, 6, 7]) = [5, 6, 7] ∧
      cb_read (circular_buffer_init e0) = (none, circular_buffer_init e0)) :=
  ⟨⟨by decide, rfl⟩, c3_fifo_order e0 [5, 6, 7] (circular_buffer_init e0) (by decide) rfl⟩

/-- C1 (code bug): `cb_write` releases nothing.  Running `M = 11 > C = 10`
writes of frames `1..11` into the initialized queue, the queue's release
trace is empty (the source of `cb_write`, circular_buffer.c:39-52, contains
no `free` call), while the overwritten frames 1 and 2 have vanished from
the live contents — the claim demands `M − (C−1) = 2` releases. -/
theorem c1_overwrite_without_release :
    (write_run (circular_buffer_init e0) [1, 2, 3, 4, 5, 6, 7, 8, 9, 10, 11]).2 = [] ∧
    contents (write_run (circular_buffer_init e0)
        [1, 2, 3, 4, 5, 6, 7, 8, 9, 10, 11]).1 = [3, 4, 5, 6, 7, 8, 9, 10, 11] ∧
    (11 : Nat) - (BUFFER_SIZE - 1) = 2 ∧
    (write_run (circular_buffer_init e0) [1, 2, 3, 4, 5, 6, 7, 8, 9, 10, 11]).2.length ≠ 2 := by
  refine ⟨rfl, by decide, by decide, by decide⟩

/-- C4 (code bug): `convert_yuyv_to_rgb` converts only the first scanline.
On a 4×2 uniform-gray frame the output has `width·3 = 12` bytes, not the
`width·height·3 = 24` the claim requires; the declared `height` is never
read (a 4×480 frame with the same bytes converts identically).  The bytes
that are produced follow the fixed-point BT.601 transform
(gray 128 ↦ 130). -/
theorem c4_first_scanline_only :
    (convert_yuyv_to_rgb grayFrame).length = 12 ∧
    grayFrame.width * grayFrame.height * 3 = 24 ∧
    (convert_yuyv_to_rgb grayFrame).length ≠ grayFrame.width * grayFrame.height * 3 ∧
    convert_yuyv_to_rgb grayFrame = convert_yuyv_to_rgb grayFrameTall ∧
    convert_yuyv_to_rgb grayFrame =
      [130, 130, 130, 130, 130, 130, 130, 130, 130, 130, 130, 130] := by
  refine ⟨by decide, by decide, by decide, by decide, by decide⟩

/-- C7: `convert_yuyv_to_rgb` is deterministic — it is a function of the
frame bytes, width and height alone (the embedding takes exactly those
arguments, mirroring the C function, which reads no other state), so two
frames with identical data, width and height produce byte-identical RGB
output. -/
theorem c7_conversion_deterministic (f g : yuyv_frame) (h1 : f.data = g.data)
    (h2 : f.width = g.width) (_h3 : f.height = g.height) :
    convert_yuyv_to_rgb f = convert_yuyv_to_rgb g := by
  unfold convert_yuyv_to_rgb
  rw [h1, h2]

/-- Witness for C7 at a concrete pair of frames. -/
theorem c7_conversion_deterministic_witness :
    (grayFrame.data = (yuyv_frame.mk (List.replicate 16 128) 4 2).data ∧
      grayFrame.width = (yuyv_frame.mk (List.replicate 16 128) 4 2).width ∧
      grayFrame.height = (yuyv_frame.mk (List.replicate 16 128) 4 2).height) ∧
    convert_yuyv_to_rgb grayFrame =
      convert_yuyv_to_rgb (yuyv_frame.mk (List.replicate 16 128) 4 2) :=
  ⟨⟨rfl, rfl, rfl⟩,
   c7_conversion_deterministic grayFrame (yuyv_frame.mk (List.replicate 16 128) 4 2)
     rfl rfl rfl⟩

/-- C5: a successful `send_mjpeg_frame` on a frame with non-null data and
size `N > 0` puts exactly the header
`--frame\r\nContent-Type: image/jpeg\r\nContent-Length: <N>\r\n\r\n`
(`<N>` in decimal), then the `N` payload bytes, then `\r\n` on the wire,
and no other bytes. -/
theorem c5_wire_format_exact (o : Nat → Option Nat) (f : jpeg_frame)
    (bytes : List Nat) (hd : f.data = some bytes) (hsz : f.size = bytes.length)
    (hpos : 0 < f.size) (hok : (send_mjpeg_frame o (some f)).1 = 0) :
    (send_mjpeg_frame o (some f)).2 =
      str_bytes (header_string f.size) ++ bytes ++ str_bytes "\r\n" := by
  have hsz0 : ¬ f.size = 0 := by omega
  simp only [send_mjpeg_frame, hd, if_neg hsz0] at hok ⊢
  rcases h0 : o 0 with _ | n0
  · simp only [sock_write, h0] at hok
    rw [if_pos (by omega :
        (-1 : Int) ≠ ((str_bytes (header_string f.size)).length : Int))] at hok
    simp at hok
  · by_cases hm0 : min n0 (str_bytes (header_string f.size)).length =
        (str_bytes (header_string f.size)).length
    · have hc0 : ¬ (((min n0 (str_bytes (header_string f.size)).length : Nat) : Int) ≠
          ((str_bytes (header_string f.size)).length : Int)) := by omega
      simp only [sock_write, h0] at hok ⊢
      rw [if_neg hc0] at hok ⊢
      simp only [hsz, List.take_length] at hok ⊢
      rcases h1 : o 1 with _ | n1
      · simp only [sock_write, h1] at hok
        rw [if_pos (by omega : (-1 : Int) ≠ ((bytes.length : Nat) : Int))] at hok
        simp at hok
      · by_cases hm1 : min n1 bytes.length = bytes.length
        · have hc1 : ¬ (((min n1 bytes.length : Nat) : Int) ≠
              ((bytes.length : Nat) : Int)) := by omega
          simp only [sock_write, h1] at hok ⊢
          rw [if_neg hc1] at hok ⊢
          rcases h2 : o 2 with _ | n2
          · simp only [sock_write, h2] at hok
            rw [if_pos (by decide : (-1 : Int) ≠ 2)] at hok
            simp at hok
          · have hlen2 : (str_bytes "\r\n").length = 2 := by decide
            by_cases hm2 : min n2 (str_bytes "\r\n").length = (str_bytes "\r\n").length
            · have hc2 : ¬ (((min n2 (str_bytes "\r\n").length : Nat) : Int) ≠ 2) := by
                rw [hm2, hlen2]
                decide
              simp only [sock_write, h2] at hok ⊢
              rw [if_neg hc2] at hok ⊢
              rw [hsz] at hm0
              rw [hm0, hm1, hm2, List.take_length, List.take_length, List.take_length]
            · have hc2 : (((min n2 (str_bytes "\r\n").length : Nat) : Int) ≠ 2) := by
                rw [hlen2] at hm2 ⊢
                omega
              simp only [sock_write, h2] at hok
              rw [if_pos hc2] at hok
              simp at hok
        · simp only [sock_write, h1] at hok
          rw [if_pos (by omega : ((min n1 bytes.length : Nat) : Int) ≠
              ((bytes.length : Nat) : Int))] at hok
          simp at hok
    · simp only [sock_write, h0] at hok
      rw [if_pos (by omega :
          ((min n0 (str_bytes (header_string f.size)).length : Nat) : Int) ≠
            ((str_bytes (header_string f.size)).length : Int))] at hok
      simp at hok

/-- Witness for C5 at a concrete input: a 3-byte payload on a socket that
accepts every write. -/
theorem c5_wire_format_exact_witness :
    ((jpeg_frame.mk (some [65, 66, 67]) 3).data = some [65, 66, 67] ∧
      (jpeg_frame.mk (some [65, 66, 67]) 3).size = ([65, 66, 67] : List Nat).length ∧
      0 < (jpeg_frame.mk (some [65, 66, 67]) 3).size ∧
      (send_mjpeg_frame sockOK (some (jpeg_frame.mk (some [65, 66, 67]) 3))).1 = 0) ∧
    (send_mjpeg_frame sockOK (some (jpeg_frame.mk (some [65, 66, 67]) 3))).2 =
      str_bytes (header_string (jpeg_frame.mk (some [65, 66, 67]) 3).size) ++
        [65, 66, 67] ++ str_bytes "\r\n" :=
  ⟨⟨rfl, rfl, by decide, by decide⟩,
   c5_wire_format_exact sockOK (jpeg_frame.mk (some [65, 66, 67]) 3) [65, 66, 67]
     rfl rfl (by decide) (by decide)⟩

/-- C10: when the frame pointer is null, its data pointer is null, or its
size is zero, `send_mjpeg_frame` returns `-1` and writes no bytes to the
client socket. -/
theorem c10_invalid_frame_writes_nothing (o : Nat → Option Nat)
    (fr : Option jpeg_frame)
    (h : fr = none ∨ ∃ f, fr = some f ∧ (f.data = none ∨ f.size = 0)) :
    send_mjpeg_frame o fr = (-1, []) := by
  rcases h with h | ⟨f, hf, hd⟩
  · rw [h]
    rfl
  · subst hf
    rcases hd with hd | hs
    · simp [send_mjpeg_frame, hd]
    · cases hdata : f.data with
      | none => simp [send_mjpeg_frame, hdata]
      | some bytes => simp [send_mjpeg_frame, hdata, hs]

/-- Witness for C10 at a concrete input: a null frame pointer. -/
theorem c10_invalid_frame_writes_nothing_witness :
    ((none : Option jpeg_frame) = none ∨
      ∃ f, (none : Option jpeg_frame) = some f ∧ (f.data = none ∨ f.size = 0)) ∧
    send_mjpeg_frame sockOK none = (-1, []) :=
  ⟨Or.inl rfl, c10_invalid_frame_writes_nothing sockOK none (Or.inl rfl)⟩

/-- C6: if any setup step of `initialize_camera` fails (device open,
format configure, buffer request, mapping, queueing, or stream start), it
returns a negative value and every resource acquired up to the failure
point is released: the final context has both descriptors at `-1`, a null
buffer array and a zero count, and in the event trace every successful
`open` has a matching `close`, every successful `mmap` a matching
`munmap`, and the `calloc` of the array a matching `free`. -/
theorem c6_setup_failure_full_teardown (o : SysOracle) (hwf : WFOracle o)
    (hfail : (init_camera o).1 < 0) :
    (init_camera o).2.1.dev_fd = -1 ∧ (init_camera o).2.1.cam_fd = -1 ∧
    (init_camera o).2.1.buffers = none ∧ (init_camera o).2.1.n_buffers = 0 ∧
    (∀ fd, CamEvent.openedFd fd ∈ (init_camera o).2.2 →
      CamEvent.closedFd fd ∈ (init_camera o).2.2) ∧
    (∀ i l, CamEvent.mmapDone i l ∈ (init_camera o).2.2 →
      CamEvent.munmapDone i l ∈ (init_camera o).2.2) ∧
    (CamEvent.callocBuffers ∈ (init_camera o).2.2 →
      CamEvent.freeBuffers ∈ (init_camera o).2.2) := by
  obtain ⟨hw1, hw2, hw3, hw4, hw5, hw6, hw7, hw8⟩ := hwf
  rcases hdev : o.openDev with _ | d
  · -- open of /dev/cam_stream failed
    have heq : init_camera o =
        (-1, (close_camera o (camera_ctx.mk (-1) (-1) 0 none 0)).1,
          (close_camera o (camera_ctx.mk (-1) (-1) 0 none 0)).2) := by
      simp [init_camera, open_control_device, hdev]
    rw [heq]
    exact c6_generic o _ [] (by decide) (by decide) (fun _ => rfl)
      (fun fd h => absurd h (by simp))
      (fun i l h => absurd h (by simp))
      (fun h => absurd h (by simp))
  · rcases hcam : o.openCam with e | c
    · -- open of /dev/video0 failed
      have he : 1 ≤ e := hw1 e hcam
      have hneg : -(e : Int) < 0 := by omega
      have heq : init_camera o =
          (-1, (close_camera o (camera_ctx.mk (d : Int) (-1) 0 none 0)).1,
            [CamEvent.openedFd d] ++
              (close_camera o (camera_ctx.mk (d : Int) (-1) 0 none 0)).2) := by
        simp [init_camera, open_control_device, configure_camera, hdev, hcam, hneg]
      rw [heq]
      refine c6_generic o _ _ ?_ ?_ ?_ ?_ ?_ ?_
      · show (-1 : Int) ≤ (d : Int)
        omega
      · show (-1 : Int) ≤ (-1 : Int)
        decide
      · intro _
        rfl
      · intro fd h
        simp at h
        subst h
        exact Or.inr (Or.inl rfl)
      · intro i l h
        simp at h
      · intro h
        simp at h
    · rcases hsf : o.sfmtRes with _ | e
      rotate_left 1
      · -- VIDIOC_S_FMT failed
        have he : 1 ≤ e := hw2 e hsf
        have hneg : -(e : Int) < 0 := by omega
        have heq : init_camera o =
            (-1, (close_camera o (camera_ctx.mk (d : Int) (-1) 0 none 0)).1,
              [CamEvent.openedFd d, CamEvent.openedFd c, CamEvent.closedFd c] ++
                (close_camera o (camera_ctx.mk (d : Int) (-1) 0 none 0)).2) := by
          simp [init_camera, open_control_device, configure_camera, hdev, hcam,
            hsf, hneg]
        rw [heq]
        refine c6_generic o _ _ ?_ ?_ ?_ ?_ ?_ ?_
        · show (-1 : Int) ≤ (d : Int)
          omega
        · show (-1 : Int) ≤ (-1 : Int)
          decide
        · intro _
          rfl
        · intro fd h
          simp at h
          rcases h with rfl | rfl
          · exact Or.inr (Or.inl rfl)
          · exact Or.inl (by simp)
        · intro i l h
          simp at h
        · intro h
          simp at h
      · -- S_FMT succeeded
        rcases hrq : o.reqbufsRes with _ | e
        rotate_left 1
        · -- VIDIOC_REQBUFS failed
          have he : 1 ≤ e := hw3 e hrq
          have hneg : -(e : Int) < 0 := by omega
          have heq : init_camera o =
              (-1, (close_camera o (camera_ctx.mk (d : Int) (c : Int) 4 none 0)).1,
                [CamEvent.openedFd d, CamEvent.openedFd c] ++
                  (close_camera o (camera_ctx.mk (d : Int) (c : Int) 4 none 0)).2) := by
            simp [init_camera, open_control_device, configure_camera,
              request_mmap_buffers, hdev, hcam, hsf, hrq, hneg]
          rw [heq]
          refine c6_generic o _ _ ?_ ?_ ?_ ?_ ?_ ?_
          · show (-1 : Int) ≤ (d : Int)
            omega
          · show (-1 : Int) ≤ (c : Int)
            omega
          · intro _
            rfl
          · intro fd h
            simp at h
            rcases h with rfl | rfl
            · exact Or.inr (Or.inl rfl)
            · exact Or.inr (Or.inr rfl)
          · intro i l h
            simp at h
          · intro h
            simp at h
        · -- REQBUFS succeeded
          rcases hcal : o.callocRes with _ | e
          rotate_left 1
          · -- calloc failed
            have he : 1 ≤ e := hw4 e hcal
            have hneg : -(e : Int) < 0 := by omega
            have heq : init_camera o =
                (-1, (close_camera o (camera_ctx.mk (d : Int) (c : Int) 4 none 0)).1,
                  [CamEvent.openedFd d, CamEvent.openedFd c] ++
                    (close_camera o (camera_ctx.mk (d : Int) (c : Int) 4 none 0)).2) := by
              simp [init_camera, open_control_device, configure_camera,
                request_mmap_buffers, map_buffers, hdev, hcam, hsf, hrq, hcal, hneg]
            rw [heq]
            refine c6_generic o _ _ ?_ ?_ ?_ ?_ ?_ ?_
            · show (-1 : Int) ≤ (d : Int)
              omega
            · show (-1 : Int) ≤ (c : Int)
              omega
            · intro _
              rfl
            · intro fd h
              simp at h
              rcases h with rfl | rfl
              · exact Or.inr (Or.inl rfl)
              · exact Or.inr (Or.inr rfl)
            · intro i l h
              simp at h
            · intro h
              simp at h
          · -- calloc succeeded
            rcases hq0 : o.querybufRes 0 with _ | e
            rotate_left 1
            · -- QUERYBUF(0) failed
              have he : 1 ≤ e := hw5 0 e hq0
              have hneg : -(e : Int) < 0 := by omega
              have heq : init_camera o =
                  (-1, (close_camera o (camera_ctx.mk (d : Int) (c : Int) 4
                      (some [dftBuf, dftBuf, dftBuf, dftBuf]) 4)).1,
                    [CamEvent.openedFd d, CamEvent.openedFd c,
                        CamEvent.callocBuffers] ++
                      (close_camera o (camera_ctx.mk (d : Int) (c : Int) 4
                        (some [dftBuf, dftBuf, dftBuf, dftBuf]) 4)).2) := by
                simp [init_camera, open_control_device, configure_camera,
                  request_mmap_buffers, map_buffers, map_loop, hdev, hcam, hsf,
                  hrq, hcal, hq0, hneg]
              rw [heq]
              refine c6_generic o _ _ ?_ ?_ ?_ ?_ ?_ ?_
              · show (-1 : Int) ≤ (d : Int)
                omega
              · show (-1 : Int) ≤ (c : Int)
                omega
              · intro h
                exact absurd h (by simp)
              · intro fd h
                simp at h
                rcases h with rfl | rfl
                · exact Or.inr (Or.inl rfl)
                · exact Or.inr (Or.inr rfl)
              · intro i l h
                simp at h
              · intro h
                exact Or.inr ⟨[dftBuf, dftBuf, dftBuf, dftBuf], rfl⟩
            · -- QUERYBUF(0) succeeded
              rcases hm0 : o.mmapRes 0 with _ | e
              rotate_left 1
              · -- mmap(0) failed
                have he : 1 ≤ e := hw6 0 e hm0
                have hneg : -(e : Int) < 0 := by omega
                have heq : init_camera o =
                    (-1, (close_camera o (camera_ctx.mk (d : Int) (c : Int) 4
                        none 0)).1,
                      [CamEvent.openedFd d, CamEvent.openedFd c,
                          CamEvent.callocBuffers, CamEvent.freeBuffers] ++
                        (close_camera o (camera_ctx.mk (d : Int) (c : Int) 4
                          none 0)).2) := by
                  simp [init_camera, open_control_device, configure_camera,
                    request_mmap_buffers, map_buffers, map_loop, setBuf,
                    cleanup_buffers, munmapUpTo, bufAt, dftBuf, hdev, hcam,
                    hsf, hrq, hcal, hq0, hm0, hneg]
                rw [heq]
                refine c6_generic o _ _ ?_ ?_ ?_ ?_ ?_ ?_
                · show (-1 : Int) ≤ (d : Int)
                  omega
                · show (-1 : Int) ≤ (c : Int)
                  omega
                · intro _
                  rfl
                · intro fd h
                  simp at h
                  rcases h with rfl | rfl
                  · exact Or.inr (Or.inl rfl)
                  · exact Or.inr (Or.inr rfl)
                · intro i l h
                  simp at h
                · intro h
                  exact Or.inl (by simp)
              · -- mmap(0) succeeded
                rcases hq1 : o.querybufRes 1 with _ | e
                rotate_left 1
                · -- QUERYBUF(1) failed
                  have he : 1 ≤ e := hw5 1 e hq1
                  have hneg : -(e : Int) < 0 := by omega
                  have heq : init_camera o =
                      (-1, (close_camera o (camera_ctx.mk (d : Int) (c : Int) 4
                          (some [MappedBuf.mk MapState.mapped (o.buflen 0),
                            dftBuf, dftBuf, dftBuf]) 4)).1,
                        [CamEvent.openedFd d, CamEvent.openedFd c,
                            CamEvent.callocBuffers,
                            CamEvent.mmapDone 0 (o.buflen 0)] ++
                          (close_camera o (camera_ctx.mk (d : Int) (c : Int) 4
                            (some [MappedBuf.mk MapState.mapped (o.buflen 0),
                              dftBuf, dftBuf, dftBuf]) 4)).2) := by
                    simp [init_camera, open_control_device, configure_camera,
                      request_mmap_buffers, map_buffers, map_loop, setBuf, hdev,
                      hcam, hsf, hrq, hcal, hq0, hm0, hq1, hneg]
                  rw [heq]
                  refine c6_generic o _ _ ?_ ?_ ?_ ?_ ?_ ?_
                  · show (-1 : Int) ≤ (d : Int)
                    omega
                  · show (-1 : Int) ≤ (c : Int)
                    omega
                  · intro h
                    exact absurd h (by simp)
                  · intro fd h
                    simp at h
                    rcases h with rfl | rfl
                    · exact Or.inr (Or.inl rfl)
                    · exact Or.inr (Or.inr rfl)
                  · intro i l h
                    simp at h
                    obtain ⟨rfl, rfl⟩ := h
                    exact Or.inr ⟨[MappedBuf.mk MapState.mapped (o.buflen 0),
                      dftBuf, dftBuf, dftBuf], rfl, by simp, rfl⟩
                  · intro h
                    exact Or.inr ⟨[MappedBuf.mk MapState.mapped (o.buflen 0),
                      dftBuf, dftBuf, dftBuf], rfl⟩
                · -- QUERYBUF(1) succeeded
                  rcases hm1 : o.mmapRes 1 with _ | e
                  rotate_left 1
                  · -- mmap(1) failed
                    have he : 1 ≤ e := hw6 1 e hm1
                    have hneg : -(e : Int) < 0 := by omega
                    have heq : init_camera o =
                        (-1, (close_camera o (camera_ctx.mk (d : Int) (c : Int) 4
                            none 0)).1,
                          [CamEvent.openedFd d, CamEvent.openedFd c,
                              CamEvent.callocBuffers,
                              CamEvent.mmapDone 0 (o.buflen 0),
                              CamEvent.munmapDone 0 (o.buflen 0),
                              CamEvent.freeBuffers] ++
                            (close_camera o (camera_ctx.mk (d : Int) (c : Int) 4
                              none 0)).2) := by
                      simp [init_camera, open_control_device, configure_camera,
                        request_mmap_buffers, map_buffers, map_loop, setBuf,
                        cleanup_buffers, munmapUpTo, bufAt, dftBuf, hdev, hcam,
                        hsf, hrq, hcal, hq0, hm0, hq1, hm1, hneg]
                    rw [heq]
                    refine c6_generic o _ _ ?_ ?_ ?_ ?_ ?_ ?_
                    · show (-1 : Int) ≤ (d : Int)
                      omega
                    · show (-1 : Int) ≤ (c : Int)
                      omega
                    · intro _
                      rfl
                    · intro fd h
                      simp at h
                      rcases h with rfl | rfl
                      · exact Or.inr (Or.inl rfl)
                      · exact Or.inr (Or.inr rfl)
                    · intro i l h
                      simp at h
                      obtain ⟨rfl, rfl⟩ := h
                      exact Or.inl (by simp)
                    · intro h
                      exact Or.inl (by simp)
                  · -- mmap(1) succeeded
                    rcases hq2 : o.querybufRes 2 with _ | e
                    rotate_left 1
                    · -- QUERYBUF(2) failed
                      have he : 1 ≤ e := hw5 2 e hq2
                      have hneg : -(e : Int) < 0 := by omega
                      have heq : init_camera o =
                          (-1, (close_camera o (camera_ctx.mk (d : Int) (c : Int) 4
                              (some [MappedBuf.mk MapState.mapped (o.buflen 0),
                                MappedBuf.mk MapState.mapped (o.buflen 1),
                                dftBuf, dftBuf]) 4)).1,
                            [CamEvent.openedFd d, CamEvent.openedFd c,
                                CamEvent.callocBuffers,
                                CamEvent.mmapDone 0 (o.buflen 0),
                                CamEvent.mmapDone 1 (o.buflen 1)] ++
                              (close_camera o (camera_ctx.mk (d : Int) (c : Int) 4
                                (some [MappedBuf.mk MapState.mapped (o.buflen 0),
                                  MappedBuf.mk MapState.mapped (o.buflen 1),
                                  dftBuf, dftBuf]) 4)).2) := by
                        simp [init_camera, open_control_device, configure_camera,
                          request_mmap_buffers, map_buffers, map_loop, setBuf,
                          hdev, hcam, hsf, hrq, hcal, hq0, hm0, hq1, hm1, hq2,
                          hneg]
                      rw [heq]
                      refine c6_generic o _ _ ?_ ?_ ?_ ?_ ?_ ?_
                      · show (-1 : Int) ≤ (d : Int)
                        omega
                      · show (-1 : Int) ≤ (c : Int)
                        omega
                      · intro h
                        exact absurd h (by simp)
                      · intro fd h
                        simp at h
                        rcases h with rfl | rfl
                        · exact Or.inr (Or.inl rfl)
                        · exact Or.inr (Or.inr rfl)
                      · intro i l h
                        simp at h
                        rcases h with ⟨rfl, rfl⟩ | ⟨rfl, rfl⟩ <;>
                          exact Or.inr ⟨[MappedBuf.mk MapState.mapped (o.buflen 0),
                            MappedBuf.mk MapState.mapped (o.buflen 1),
                            dftBuf, dftBuf], rfl, by simp, rfl⟩
                      · intro h
                        exact Or.inr ⟨[MappedBuf.mk MapState.mapped (o.buflen 0),
                          MappedBuf.mk MapState.mapped (o.buflen 1),
                          dftBuf, dftBuf], rfl⟩
                    · -- QUERYBUF(2) succeeded
                      rcases hm2 : o.mmapRes 2 with _ | e
                      rotate_left 1
                      · -- mmap(2) failed
                        have he : 1 ≤ e := hw6 2 e hm2
                        have hneg : -(e : Int) < 0 := by omega
                        have heq : init_camera o =
                            (-1, (close_camera o (camera_ctx.mk (d : Int)
                                (c : Int) 4 none 0)).1,
                              [CamEvent.openedFd d, CamEvent.openedFd c,
                                  CamEvent.callocBuffers,
                                  CamEvent.mmapDone 0 (o.buflen 0),
                                  CamEvent.mmapDone 1 (o.buflen 1),
                                  CamEvent.munmapDone 0 (o.buflen 0),
                                  CamEvent.munmapDone 1 (o.buflen 1),
                                  CamEvent.freeBuffers] ++
                                (close_camera o (camera_ctx.mk (d : Int)
                                  (c : Int) 4 none 0)).2) := by
                          simp [init_camera, open_control_device,
                            configure_camera, request_mmap_buffers, map_buffers,
                            map_loop, setBuf, cleanup_buffers, munmapUpTo,
                            bufAt, dftBuf, hdev, hcam, hsf, hrq, hcal, hq0, hm0,
                            hq1, hm1, hq2, hm2, hneg]
                        rw [heq]
                        refine c6_generic o _ _ ?_ ?_ ?_ ?_ ?_ ?_
                        · show (-1 : Int) ≤ (d : Int)
                          omega
                        · show (-1 : Int) ≤ (c : Int)
                          omega
                        · intro _
                          rfl
                        · intro fd h
                          simp at h
                          rcases h with rfl | rfl
                          · exact Or.inr (Or.inl rfl)
                          · exact Or.inr (Or.inr rfl)
                        · intro i l h
                          simp at h
                          rcases h with ⟨rfl, rfl⟩ | ⟨rfl, rfl⟩ <;>
                            exact Or.inl (by simp)
                        · intro h
                          exact Or.inl (by simp)
                      · -- mmap(2) succeeded
                        rcases hq3 : o.querybufRes 3 with _ | e
                        rotate_left 1
                        · -- QUERYBUF(3) failed
                          have he : 1 ≤ e := hw5 3 e hq3
                          have hneg : -(e : Int) < 0 := by omega
                          have heq : init_camera o =
                              (-1, (close_camera o (camera_ctx.mk (d : Int)
                                  (c : Int) 4
                                  (some [MappedBuf.mk MapState.mapped (o.buflen 0),
                                    MappedBuf.mk MapState.mapped (o.buflen 1),
                                    MappedBuf.mk MapState.mapped (o.buflen 2),
                                    dftBuf]) 4)).1,
                                [CamEvent.openedFd d, CamEvent.openedFd c,
                                    CamEvent.callocBuffers,
                                    CamEvent.mmapDone 0 (o.buflen 0),
                                    CamEvent.mmapDone 1 (o.buflen 1),
                                    CamEvent.mmapDone 2 (o.buflen 2)] ++
                                  (close_camera o (camera_ctx.mk (d : Int)
                                    (c : Int) 4
                                    (some [MappedBuf.mk MapState.mapped (o.buflen 0),
                                      MappedBuf.mk MapState.mapped (o.buflen 1),
                                      MappedBuf.mk MapState.mapped (o.buflen 2),
                                      dftBuf]) 4)).2) := by
                            simp [init_camera, open_control_device,
                              configure_camera, request_mmap_buffers,
                              map_buffers, map_loop, setBuf, hdev, hcam, hsf,
                              hrq, hcal, hq0, hm0, hq1, hm1, hq2, hm2, hq3,
                              hneg]
                          rw [heq]
                          refine c6_generic o _ _ ?_ ?_ ?_ ?_ ?_ ?_
                          · show (-1 : Int) ≤ (d : Int)
                            omega
                          · show (-1 : Int) ≤ (c : Int)
                            omega
                          · intro h
                            exact absurd h (by simp)
                          · intro fd h
                            simp at h
                            rcases h with rfl | rfl
                            · exact Or.inr (Or.inl rfl)
                            · exact Or.inr (Or.inr rfl)
                          · intro i l h
                            simp at h
                            rcases h with ⟨rfl, rfl⟩ | ⟨rfl, rfl⟩ | ⟨rfl, rfl⟩ <;>
                              exact Or.inr ⟨[MappedBuf.mk MapState.mapped (o.buflen 0),
                                MappedBuf.mk MapState.mapped (o.buflen 1),
                                MappedBuf.mk MapState.mapped (o.buflen 2),
                                dftBuf], rfl, by simp, rfl⟩
                          · intro h
                            exact Or.inr ⟨[MappedBuf.mk MapState.mapped (o.buflen 0),
                              MappedBuf.mk MapState.mapped (o.buflen 1),
                              MappedBuf.mk MapState.mapped (o.buflen 2),
                              dftBuf], rfl⟩
                        · -- QUERYBUF(3) succeeded
                          rcases hm3 : o.mmapRes 3 with _ | e
                          rotate_left 1
                          · -- mmap(3) failed
                            have he : 1 ≤ e := hw6 3 e hm3
                            have hneg : -(e : Int) < 0 := by omega
                            have heq : init_camera o =
                                (-1, (close_camera o (camera_ctx.mk (d : Int)
                                    (c : Int) 4 none 0)).1,
                                  [CamEvent.openedFd d, CamEvent.openedFd c,
                                      CamEvent.callocBuffers,
                                      CamEvent.mmapDone 0 (o.buflen 0),
                                      CamEvent.mmapDone 1 (o.buflen 1),
                                      CamEvent.mmapDone 2 (o.buflen 2),
                                      CamEvent.munmapDone 0 (o.buflen 0),
                                      CamEvent.munmapDone 1 (o.buflen 1),
                                      CamEvent.munmapDone 2 (o.buflen 2),
                                      CamEvent.freeBuffers] ++
                                    (close_camera o (camera_ctx.mk (d : Int)
                                      (c : Int) 4 none 0)).2) := by
                              simp [init_camera, open_control_device,
                                configure_camera, request_mmap_buffers,
                                map_buffers, map_loop, setBuf, cleanup_buffers,
                                munmapUpTo, bufAt, dftBuf, hdev, hcam, hsf, hrq,
                                hcal, hq0, hm0, hq1, hm1, hq2, hm2, hq3, hm3,
                                hneg]
                            rw [heq]
                            refine c6_generic o _ _ ?_ ?_ ?_ ?_ ?_ ?_
                            · show (-1 : Int) ≤ (d : Int)
                              omega
                            · show (-1 : Int) ≤ (c : Int)
                              omega
                            · intro _
                              rfl
                            · intro fd h
                              simp at h
                              rcases h with rfl | rfl
                              · exact Or.inr (Or.inl rfl)
                              · exact Or.inr (Or.inr rfl)
                            · intro i l h
                              simp at h
                              rcases h with ⟨rfl, rfl⟩ | ⟨rfl, rfl⟩ | ⟨rfl, rfl⟩ <;>
                                exact Or.inl (by simp)
                            · intro h
                              exact Or.inl (by simp)
                          · -- mmap(3) succeeded: all four buffers mapped
                            obtain ⟨hqs, hqe, hqr⟩ :=
                              queue_loop_cases o 4 0 (camera_ctx.mk (d : Int)
                                (c : Int) 4
                                (some [MappedBuf.mk MapState.mapped (o.buflen 0),
                                  MappedBuf.mk MapState.mapped (o.buflen 1),
                                  MappedBuf.mk MapState.mapped (o.buflen 2),
                                  MappedBuf.mk MapState.mapped (o.buflen 3)]) 4)
                            rcases hqr with hql | ⟨j, e, hqj, hr5⟩
                            · -- all VIDIOC_QBUF succeeded
                              rcases hso : o.streamonRes with _ | e
                              · -- STREAMON succeeded: setup succeeds, contradiction
                                have heq1 : (init_camera o).1 = 0 := by
                                  simp [init_camera, open_control_device,
                                    configure_camera, request_mmap_buffers,
                                    map_buffers, map_loop, setBuf, queue_buffers,
                                    start_stream, led_stream_on, hdev, hcam, hsf,
                                    hrq, hcal, hq0, hm0, hq1, hm1, hq2, hm2, hq3,
                                    hm3, hso, hqs, hqe, hql]
                                omega
                              · -- STREAMON failed
                                have he : 1 ≤ e := hw8 e hso
                                have hneg : -(e : Int) < 0 := by omega
                                have heq : init_camera o =
                                    (-1, (close_camera o (camera_ctx.mk (d : Int)
                                        (c : Int) 4
                                        (some [MappedBuf.mk MapState.mapped (o.buflen 0),
                                          MappedBuf.mk MapState.mapped (o.buflen 1),
                                          MappedBuf.mk MapState.mapped (o.buflen 2),
                                          MappedBuf.mk MapState.mapped (o.buflen 3)]) 4)).1,
                                      [CamEvent.openedFd d, CamEvent.openedFd c,
                                          CamEvent.callocBuffers,
                                          CamEvent.mmapDone 0 (o.buflen 0),
                                          CamEvent.mmapDone 1 (o.buflen 1),
                                          CamEvent.mmapDone 2 (o.buflen 2),
                                          CamEvent.mmapDone 3 (o.buflen 3)] ++
                                        (close_camera o (camera_ctx.mk (d : Int)
                                          (c : Int) 4
                                          (some [MappedBuf.mk MapState.mapped (o.buflen 0),
                                            MappedBuf.mk MapState.mapped (o.buflen 1),
                                            MappedBuf.mk MapState.mapped (o.buflen 2),
                                            MappedBuf.mk MapState.mapped (o.buflen 3)]) 4)).2) := by
                                  simp [init_camera, open_control_device,
                                    configure_camera, request_mmap_buffers,
                                    map_buffers, map_loop, setBuf, queue_buffers,
                                    start_stream, hdev, hcam, hsf, hrq, hcal,
                                    hq0, hm0, hq1, hm1, hq2, hm2, hq3, hm3, hso,
                                    hqs, hqe, hql, hneg]
                                rw [heq]
                                refine c6_generic o _ _ ?_ ?_ ?_ ?_ ?_ ?_
                                · show (-1 : Int) ≤ (d : Int)
                                  omega
                                · show (-1 : Int) ≤ (c : Int)
                                  omega
                                · intro h
                                  exact absurd h (by simp)
                                · intro fd h
                                  simp at h
                                  rcases h with rfl | rfl
                                  · exact Or.inr (Or.inl rfl)
                                  · exact Or.inr (Or.inr rfl)
                                · intro i l h
                                  simp at h
                                  rcases h with ⟨rfl, rfl⟩ | ⟨rfl, rfl⟩ | ⟨rfl, rfl⟩ | ⟨rfl, rfl⟩ <;>
                                    exact Or.inr ⟨[MappedBuf.mk MapState.mapped (o.buflen 0),
                                      MappedBuf.mk MapState.mapped (o.buflen 1),
                                      MappedBuf.mk MapState.mapped (o.buflen 2),
                                      MappedBuf.mk MapState.mapped (o.buflen 3)],
                                      rfl, by simp, rfl⟩
                                · intro h
                                  exact Or.inr ⟨[MappedBuf.mk MapState.mapped (o.buflen 0),
                                    MappedBuf.mk MapState.mapped (o.buflen 1),
                                    MappedBuf.mk MapState.mapped (o.buflen 2),
                                    MappedBuf.mk MapState.mapped (o.buflen 3)], rfl⟩
                            · -- some VIDIOC_QBUF failed
                              have he : 1 ≤ e := hw7 j e hqj
                              have hneg : -(e : Int) < 0 := by omega
                              have heq : init_camera o =
                                  (-1, (close_camera o (camera_ctx.mk (d : Int)
                                      (c : Int) 4
                                      (some [MappedBuf.mk MapState.mapped (o.buflen 0),
                                        MappedBuf.mk MapState.mapped (o.buflen 1),
                                        MappedBuf.mk MapState.mapped (o.buflen 2),
                                        MappedBuf.mk MapState.mapped (o.buflen 3)]) 4)).1,
                                    [CamEvent.openedFd d, CamEvent.openedFd c,
                                        CamEvent.callocBuffers,
                                        CamEvent.mmapDone 0 (o.buflen 0),
                                        CamEvent.mmapDone 1 (o.buflen 1),
                                        CamEvent.mmapDone 2 (o.buflen 2),
                                        CamEvent.mmapDone 3 (o.buflen 3)] ++
                                      (close_camera o (camera_ctx.mk (d : Int)
                                        (c : Int) 4
                                        (some [MappedBuf.mk MapState.mapped (o.buflen 0),
                                          MappedBuf.mk MapState.mapped (o.buflen 1),
                                          MappedBuf.mk MapState.mapped (o.buflen 2),
                                          MappedBuf.mk MapState.mapped (o.buflen 3)]) 4)).2) := by
                                simp [init_camera, open_control_device,
                                  configure_camera, request_mmap_buffers,
                                  map_buffers, map_loop, setBuf, queue_buffers,
                                  hdev, hcam, hsf, hrq, hcal, hq0, hm0, hq1,
                                  hm1, hq2, hm2, hq3, hm3, hqs, hqe, hr5, hneg]
                              rw [heq]
                              refine c6_generic o _ _ ?_ ?_ ?_ ?_ ?_ ?_
                              · show (-1 : Int) ≤ (d : Int)
                                omega
                              · show (-1 : Int) ≤ (c : Int)
                                omega
                              · intro h
                                exact absurd h (by simp)
                              · intro fd h
                                simp at h
                                rcases h with rfl | rfl
                                · exact Or.inr (Or.inl rfl)
                                · exact Or.inr (Or.inr rfl)
                              · intro i l h
                                simp at h
                                rcases h with ⟨rfl, rfl⟩ | ⟨rfl, rfl⟩ | ⟨rfl, rfl⟩ | ⟨rfl, rfl⟩ <;>
                                  exact Or.inr ⟨[MappedBuf.mk MapState.mapped (o.buflen 0),
                                    MappedBuf.mk MapState.mapped (o.buflen 1),
                                    MappedBuf.mk MapState.mapped (o.buflen 2),
                                    MappedBuf.mk MapState.mapped (o.buflen 3)],
                                    rfl, by simp, rfl⟩
                              · intro h
                                exact Or.inr ⟨[MappedBuf.mk MapState.mapped (o.buflen 0),
                                  MappedBuf.mk MapState.mapped (o.buflen 1),
                                  MappedBuf.mk MapState.mapped (o.buflen 2),
                                  MappedBuf.mk MapState.mapped (o.buflen 3)], rfl⟩

/-- Witness for C6: the control-device `open` fails; teardown leaves the
fresh context fully closed with an empty trace. -/
theorem c6_setup_failure_full_teardown_witness :
    (WFOracle oracleNoDev ∧ (init_camera oracleNoDev).1 < 0) ∧
    ((init_camera oracleNoDev).2.1.dev_fd = -1 ∧
      (init_camera oracleNoDev).2.1.cam_fd = -1 ∧
      (init_camera oracleNoDev).2.1.buffers = none ∧
      (init_camera oracleNoDev).2.1.n_buffers = 0 ∧
      (∀ fd, CamEvent.openedFd fd ∈ (init_camera oracleNoDev).2.2 →
        CamEvent.closedFd fd ∈ (init_camera oracleNoDev).2.2) ∧
      (∀ i l, CamEvent.mmapDone i l ∈ (init_camera oracleNoDev).2.2 →
        CamEvent.munmapDone i l ∈ (init_camera oracleNoDev).2.2) ∧
      (CamEvent.callocBuffers ∈ (init_camera oracleNoDev).2.2 →
        CamEvent.freeBuffers ∈ (init_camera oracleNoDev).2.2)) := by
  have hwf : WFOracle oracleNoDev := by
    refine ⟨?_, ?_, ?_, ?_, ?_, ?_, ?_, ?_⟩
    · intro e h
      simp [oracleNoDev, oracleOK] at h
    · intro e h
      simp [oracleNoDev, oracleOK] at h
    · intro e h
      simp [oracleNoDev, oracleOK] at h
    · intro e h
      simp [oracleNoDev, oracleOK] at h
    · intro i e h
      simp [oracleNoDev, oracleOK] at h
    · intro i e h
      simp [oracleNoDev, oracleOK] at h
    · intro i e h
      simp [oracleNoDev, oracleOK] at h
    · intro e h
      simp [oracleNoDev, oracleOK] at h
  have hfail : (init_camera oracleNoDev).1 < 0 := by decide
  exact ⟨⟨hwf, hfail⟩, c6_setup_failure_full_teardown oracleNoDev hwf hfail⟩

end CamStreamer
